import Mathlib

set_option maxHeartbeats 4000000

/-!
Verification development for the icps interpreter (src/: scanner.rs, parser.rs,
interpreter.rs, environment.rs, token.rs, icps.rs).

The Rust source is shallowly embedded below:

* `F64` models Rust's `f64` as an exact, unnormalized fraction `num / den`
  (`den > 0` in every reachable value).  All values the verified claims
  exercise are small decimal fractions on which `f64` arithmetic is exact,
  so exact rational arithmetic is a faithful model of their behavior.
  `F64.fmt` mirrors Rust's shortest `Display` form for numbers whose decimal
  expansion terminates (the only ones exercised here).
* The scanner, parser and evaluator are translated function by function.
  Loops become fuel-indexed structural recursion (`Nat` fuel); exhausting
  fuel yields a dedicated `timeout` outcome that is an artifact of the
  embedding, never a program behavior.  `panicked` models Rust `panic!` /
  `unwrap` failures and `exit0` models the `process::exit(0)` inside
  `Parser::peek`.
* The `Rc<RefCell<Environment>>` scope chain is modeled as a list of frames,
  innermost first.  Pushing a child scope conses an empty frame; the
  restore `self.env = previous.borrow().clone()` corresponds to dropping
  the frames pushed above the saved depth (mutations of enclosing scopes
  live in the tail frames and are therefore preserved, exactly as the
  shared `RefCell` chain preserves them).
-/

namespace Icps

/-- Model of Rust `f64`: an exact fraction `num / den`.  Fractions are not
normalized; all observations (`qeq`, `blt`, ...) compare by cross
multiplication, mirroring numeric `==` / `<` on `f64`. -/
structure F64 where
  num : Int
  den : Nat
deriving DecidableEq, Repr

/-- `f64` addition (exact on the values exercised by the claims). -/
def F64.add (a b : F64) : F64 := ⟨a.num * b.den + b.num * a.den, a.den * b.den⟩

/-- `f64` subtraction. -/
def F64.sub (a b : F64) : F64 := ⟨a.num * b.den - b.num * a.den, a.den * b.den⟩

/-- `f64` multiplication. -/
def F64.mul (a b : F64) : F64 := ⟨a.num * b.num, a.den * b.den⟩

/-- `f64` division.  Division by zero is trapped before this function is
reached (interpreter.rs:115), so the zero-divisor case is unreachable. -/
def F64.div (a b : F64) : F64 :=
  if b.num < 0 then ⟨-(a.num * b.den), a.den * b.num.natAbs⟩
  else ⟨a.num * b.den, a.den * b.num.natAbs⟩

/-- `f64` negation (unary minus, interpreter.rs:40). -/
def F64.neg (a : F64) : F64 := ⟨-a.num, a.den⟩

/-- Numeric equality `==` on `f64` values. -/
def F64.qeq (a b : F64) : Bool := a.num * (b.den : Int) == b.num * (a.den : Int)

/-- Numeric `<` on `f64` values. -/
def F64.blt (a b : F64) : Bool := a.num * (b.den : Int) < b.num * (a.den : Int)

/-- Numeric `<=` on `f64` values. -/
def F64.ble (a b : F64) : Bool := a.num * (b.den : Int) ≤ b.num * (a.den : Int)

/-- Numeric `>` on `f64` values. -/
def F64.bgt (a b : F64) : Bool := F64.blt b a

/-- Numeric `>=` on `f64` values (used by the for loop's exit test,
interpreter.rs:319). -/
def F64.bge (a b : F64) : Bool := F64.ble b a

/-- Rust `f64::round`: rounds half away from zero. -/
def F64.round (a : F64) : Int :=
  if a.num < 0 then -(((2 * a.num.natAbs + a.den) / (2 * a.den) : Nat) : Int)
  else (((2 * a.num.natAbs + a.den) / (2 * a.den) : Nat) : Int)

/-- The constant `0.0`. -/
def f64Zero : F64 := ⟨0, 1⟩

/-- The constant `1.0` (the for loop's increment, interpreter.rs:314). -/
def f64One : F64 := ⟨1, 1⟩

/-- Rust `as usize` on an `f64`-derived integer: the cast saturates, so
negative values clamp to `0` and huge values clamp to `usize::MAX`. -/
def usizeSat (i : Int) : Nat :=
  if i < 0 then 0 else min i.toNat 18446744073709551615

/-- Rust `str::repeat`. -/
def strRepeat (s : String) (n : Nat) : String := String.join (List.replicate n s)

/-- Left-pads a digit string with zeros to width `k`. -/
def padZeros (k : Nat) (s : String) : String :=
  String.mk (List.replicate (k - s.length) '0') ++ s

/-- Rust `Display` for `f64`, for values whose decimal expansion terminates:
the shortest decimal form (integer values print with no point, fractional
values print the fewest fractional digits).  This is exactly what Rust's
shortest-roundtrip formatting prints for every number the claims exercise.
Values with non-terminating expansions (never produced by the scanned
literals; only producible by division, which no claim formats) fall back to
a fraction rendering. -/
def F64.fmt (a : F64) : String :=
  let sign := if a.num < 0 then "-" else ""
  let n := a.num.natAbs
  if a.den = 0 then sign ++ "inf"
  else if n % a.den = 0 then sign ++ toString (n / a.den)
  else
    match (List.range 64).find? (fun j => (n * 10 ^ (j + 1)) % a.den = 0) with
    | some j =>
        let k := j + 1
        let scaled := n * 10 ^ k / a.den
        sign ++ toString (scaled / 10 ^ k) ++ "." ++ padZeros k (toString (scaled % 10 ^ k))
    | none => sign ++ toString n ++ "/" ++ toString a.den

/-- Source location (scanner.rs `Loc`). -/
structure Loc where
  line : Nat
  col : Nat
  idx : Nat
deriving DecidableEq, Repr

/-- token.rs `Token`. -/
inductive Token where
  | LeftParen | RightParen | LeftBrace | RightBrace | At | Comma
  | Plus | Minus | Slash | Star | Range | Semicolon | Newline
  | QuestionMark | Colon
  | Bang | BangEqual | Equal | EqualEqual
  | Greater | GreaterEqual | Less | LessEqual
  | Identifier (s : String)
  | String (s : String)
  | Number (n : F64)
  | And | Or | Xor | Not | True | False | Class | If | Else | While | For
  | Null | Log | Return | Super | This | Fn | Use | Var
  | Eof | UnterminatedString
  | Unknown (c : Char)
deriving DecidableEq, Repr

/-- token.rs `impl PartialEq for Token`: kind equality.  Two literal-carrying
tokens of the same kind are equal regardless of payload; the arm list below
mirrors the `matches!` list in the source. -/
def Token.kindEq : Token → Token → Bool
  | .Identifier _, .Identifier _ => true
  | .String _, .String _ => true
  | .Number _, .Number _ => true
  | .Unknown _, .Unknown _ => true
  | .LeftParen, .LeftParen => true
  | .RightParen, .RightParen => true
  | .LeftBrace, .LeftBrace => true
  | .RightBrace, .RightBrace => true
  | .At, .At => true
  | .Comma, .Comma => true
  | .Plus, .Plus => true
  | .Minus, .Minus => true
  | .Slash, .Slash => true
  | .Star, .Star => true
  | .Range, .Range => true
  | .Semicolon, .Semicolon => true
  | .Newline, .Newline => true
  | .QuestionMark, .QuestionMark => true
  | .Colon, .Colon => true
  | .Bang, .Bang => true
  | .BangEqual, .BangEqual => true
  | .Equal, .Equal => true
  | .EqualEqual, .EqualEqual => true
  | .Greater, .Greater => true
  | .GreaterEqual, .GreaterEqual => true
  | .Less, .Less => true
  | .LessEqual, .LessEqual => true
  | .And, .And => true
  | .Or, .Or => true
  | .Xor, .Xor => true
  | .Not, .Not => true
  | .True, .True => true
  | .False, .False => true
  | .Class, .Class => true
  | .If, .If => true
  | .Else, .Else => true
  | .While, .While => true
  | .For, .For => true
  | .Null, .Null => true
  | .Log, .Log => true
  | .Return, .Return => true
  | .Super, .Super => true
  | .This, .This => true
  | .Fn, .Fn => true
  | .Use, .Use => true
  | .Var, .Var => true
  | .Eof, .Eof => true
  | .UnterminatedString, .UnterminatedString => true
  | _, _ => false

/-- token.rs `impl Display for Token`. -/
def tokStr : Token → String
  | .LeftParen => "("
  | .RightParen => ")"
  | .LeftBrace => "\x7b"
  | .RightBrace => "\x7d"
  | .At => "@"
  | .Comma => ","
  | .Plus => "+"
  | .Minus => "-"
  | .Slash => "/"
  | .Star => "*"
  | .Range => ".."
  | .Semicolon => ";"
  | .Newline => "\\n"
  | .QuestionMark => "?"
  | .Colon => ":"
  | .Bang => "!"
  | .BangEqual => "!="
  | .Equal => "="
  | .EqualEqual => "=="
  | .Greater => ">"
  | .GreaterEqual => ">="
  | .Less => "<"
  | .LessEqual => "<="
  | .Identifier s => s
  | .String s => s
  | .Number n => n.fmt
  | .And => "and"
  | .Or => "or"
  | .Xor => "xor"
  | .Not => "not"
  | .True => "true"
  | .False => "false"
  | .Class => "class"
  | .If => "if"
  | .Else => "else"
  | .While => "while"
  | .For => "for"
  | .Null => "null"
  | .Log => "log"
  | .Return => "return"
  | .Super => "super"
  | .This => "this"
  | .Fn => "fn"
  | .Use => "use"
  | .Var => "var"
  | .Eof => "EOF"
  | .UnterminatedString => "unterminated string"
  | .Unknown _ => "unknown"

/-- token.rs `Token::is_valid_value`. -/
def Token.is_valid_value : Token → Bool
  | .Number _ => true
  | .String _ => true
  | .True => true
  | .False => true
  | .Null => true
  | _ => false

/-- token.rs `KEYWORDS`. -/
def keywords : String → Option Token
  | "and" => some .And
  | "or" => some .Or
  | "xor" => some .Xor
  | "not" => some .Not
  | "true" => some .True
  | "false" => some .False
  | "class" => some .Class
  | "if" => some .If
  | "else" => some .Else
  | "while" => some .While
  | "for" => some .For
  | "null" => some .Null
  | "log" => some .Log
  | "return" => some .Return
  | "super" => some .Super
  | "this" => some .This
  | "fn" => some .Fn
  | "use" => some .Use
  | "var" => some .Var
  | _ => none

/-- scanner.rs `LocToken`. -/
structure LocToken where
  token : Token
  loc : Loc
deriving DecidableEq, Repr

/-- icps.rs `Error`. -/
structure Error where
  loc : Loc
  message : String
deriving DecidableEq, Repr

/-- scanner.rs `Scanner` state: the remaining character iterator, the emitted
tokens and the current location. -/
structure ScanSt where
  it : List Char
  tokens : List LocToken
  cur : Loc
deriving DecidableEq, Repr

/-- The `Some(c)` arm of scanner.rs `Scanner::next`: advance the location over
one consumed character. -/
def advLoc (cur : Loc) (c : Char) : Loc :=
  if c = '\n' then ⟨cur.line + 1, 1, cur.idx + 1⟩
  else ⟨cur.line, cur.col + 1, cur.idx + 1⟩

/-- The `None` arm of scanner.rs `Scanner::next`: `idx` is still incremented
when the iterator is exhausted. -/
def bumpIdx (cur : Loc) : Loc := ⟨cur.line, cur.col, cur.idx + 1⟩

/-- scanner.rs `Scanner::next` on the modeled state. -/
def snext (st : ScanSt) : Option Char × ScanSt :=
  match st.it with
  | [] => (none, { st with cur := bumpIdx st.cur })
  | c :: rest => (some c, { st with it := rest, cur := advLoc st.cur c })

/-- The string-body loop of scanner.rs `Scanner::string`: consume characters
via `next` until a closing quote or end of input; returns the collected
characters, the remaining input and the updated location. -/
def stringLoop : List Char → Loc → List Char → List Char × List Char × Loc
  | [], cur, s => (s, [], bumpIdx cur)
  | c :: rest, cur, s =>
      let cur' := advLoc cur c
      if c = '"' then (s, rest, cur')
      else stringLoop rest cur' (s ++ [c])

/-- scanner.rs `Scanner::string`.  `c` is the character that selected the
string branch — always the opening `'"'` — yet the post-loop check reads
this parameter, not the loop variable it shadows, so the `Err` branch is
unreachable. -/
def stringFn (c : Char) (it : List Char) (cur : Loc) :
    Except Error Token × List Char × Loc :=
  let r := stringLoop it cur []
  if c = '"' then (.ok (.String (String.mk r.1)), r.2.1, r.2.2)
  else (.error ⟨r.2.2, "Unterminated string"⟩, r.2.1, r.2.2)

/-- The digit-collecting loop shared by scanner.rs `Scanner::number` and
`Scanner::collect_decimal_part`: peek, consume while the next character is a
decimal digit. -/
def digitsLoop : List Char → Loc → List Char → List Char × List Char × Loc
  | [], cur, acc => (acc, [], cur)
  | c :: rest, cur, acc =>
      if c.isDigit then digitsLoop rest (advLoc cur c) (acc ++ [c])
      else (acc, c :: rest, cur)

/-- The comment loop of the `//` arm of scanner.rs `Scanner::scan`: consume
via `next` up to and including the terminating newline (or end of input). -/
def lineCommentLoop : List Char → Loc → List Char × Loc
  | [], cur => ([], bumpIdx cur)
  | c :: rest, cur =>
      let cur' := advLoc cur c
      if c = '\n' then (rest, cur') else lineCommentLoop rest cur'

/-- The comment loop of the `/*` arm of scanner.rs `Scanner::scan`: consume
until `*` followed by `/` (consuming both) or end of input. -/
def blockCommentLoop : List Char → Loc → List Char × Loc
  | [], cur => ([], bumpIdx cur)
  | c :: rest, cur =>
      let cur' := advLoc cur c
      if c = '*' then
        match rest with
        | '/' :: rest2 => (rest2, advLoc cur' '/')
        | _ => blockCommentLoop rest cur'
      else blockCommentLoop rest cur'

/-- Splits a character list at every `'.'` (helper for `parseF64`). -/
def splitDots : List Char → List (List Char)
  | [] => [[]]
  | '.' :: rest => [] :: splitDots rest
  | c :: rest =>
      match splitDots rest with
      | h :: t => (c :: h) :: t
      | [] => [[c]]

/-- Numeric value of a digit run. -/
def natOfDigits (l : List Char) : Nat :=
  l.foldl (fun a c => a * 10 + (c.toNat - 48)) 0

/-- Models Rust `str::parse::<f64>()` on the strings the scanner actually
feeds it: a nonempty digit run, or digits around a single `'.'` (at least
one digit in total).  Every other shape — in particular a string with two
dots such as `"1.2.3"` — fails, as `f64` parsing does. -/
def parseF64 (s : List Char) : Option F64 :=
  match splitDots s with
  | [a] => if a ≠ [] ∧ a.all Char.isDigit then some ⟨natOfDigits a, 1⟩ else none
  | [a, b] =>
      if (a ≠ [] ∨ b ≠ []) ∧ a.all Char.isDigit ∧ b.all Char.isDigit then
        some ⟨natOfDigits a * 10 ^ b.length + natOfDigits b, 10 ^ b.length⟩
      else none
  | _ => none

/-- scanner.rs `Scanner::number`: collect further digits after the starting
digit and parse (the parse of a digit run cannot fail, but the source maps a
failure to an "Invalid number" error, mirrored here). -/
def numberFn (start : Char) (it : List Char) (cur : Loc) :
    Except Error Token × List Char × Loc :=
  let r := digitsLoop it cur [start]
  match parseF64 r.1 with
  | some v => (.ok (.Number v), r.2.1, r.2.2)
  | none => (.error ⟨r.2.2, "Invalid number"⟩, r.2.1, r.2.2)

/-- The identifier-collecting loop of scanner.rs `Scanner::identifier`
(Rust's Unicode `is_alphanumeric` is modeled by `Char.isAlphanum`, faithful
on the ASCII sources considered here). -/
def identLoop : List Char → Loc → List Char → List Char × List Char × Loc
  | [], cur, acc => (acc, [], cur)
  | c :: rest, cur, acc =>
      if c.isAlphanum then identLoop rest (advLoc cur c) (acc ++ [c])
      else (acc, c :: rest, cur)

/-- scanner.rs `Scanner::identifier`: collect an alphanumeric run and
reclassify via the keyword table. -/
def identifierFn (c : Char) (it : List Char) (cur : Loc) :
    Token × List Char × Loc :=
  let r := identLoop it cur [c]
  let s := String.mk r.1
  match keywords s with
  | some t => (t, r.2.1, r.2.2)
  | none => (.Identifier s, r.2.1, r.2.2)

/-- Scanner outcomes.  `panicked` models the `unwrap()` panic in the decimal
merge arm of `Scanner::scan`; `timeout` is the fuel-exhaustion artifact of
the embedding (never reached by `scan`, whose fuel covers the input). -/
inductive SOut where
  | ok (tokens : List LocToken)
  | err (e : Error)
  | panicked
  | timeout
deriving DecidableEq, Repr

/-- Appends a token at the current location (scanner.rs `Scanner::emit`). -/
def emitTok (st : ScanSt) (t : Token) : ScanSt :=
  { st with tokens := st.tokens ++ [⟨t, st.cur⟩] }

/-- Takes the `' '` / `'\t'` arms' manual location bump. -/
def bumpColIdx (cur : Loc) : Loc := ⟨cur.line, cur.col + 1, cur.idx + 1⟩

/-- Replaces the token list's last element (the `last_mut` update in the
decimal-merge arm of `Scanner::scan`). -/
def replaceLast (ts : List LocToken) (t : LocToken) : List LocToken :=
  ts.dropLast ++ [t]

/-- The main loop of scanner.rs `Scanner::scan`, one outer iteration per unit
of fuel.  The loop header consumes a character directly from the iterator
(`self.it.next()`), bypassing the location-updating `next`; each arm then
adjusts the location exactly as the source does. -/
def scanLoop : Nat → ScanSt → SOut
  | 0, _ => .timeout
  | fuel + 1, st =>
    match st.it with
    | [] => .ok (st.tokens ++ [⟨.Eof, st.cur⟩])
    | c :: rest =>
      let st := { st with it := rest }
      match c with
      | ' ' => scanLoop fuel { st with cur := bumpColIdx st.cur }
      | '\r' => scanLoop fuel st
      | '\t' => scanLoop fuel { st with cur := bumpColIdx st.cur }
      | '\n' =>
          let cur : Loc := ⟨st.cur.line + 1, 1, st.cur.idx + 1⟩
          scanLoop fuel (emitTok { st with cur := cur } .Newline)
      | '(' => scanLoop fuel (emitTok st .LeftParen)
      | ')' => scanLoop fuel (emitTok st .RightParen)
      | '{' => scanLoop fuel (emitTok st .LeftBrace)
      | '}' => scanLoop fuel (emitTok st .RightBrace)
      | '@' => scanLoop fuel (emitTok st .At)
      | ',' => scanLoop fuel (emitTok st .Comma)
      | '+' => scanLoop fuel (emitTok st .Plus)
      | '-' => scanLoop fuel (emitTok st .Minus)
      | '/' =>
          match st.it with
          | '/' :: _ =>
              let r := lineCommentLoop st.it st.cur
              scanLoop fuel (emitTok { st with it := r.1, cur := r.2 } .Newline)
          | '*' :: _ =>
              let r := blockCommentLoop st.it st.cur
              scanLoop fuel { st with it := r.1, cur := r.2 }
          | _ => scanLoop fuel (emitTok st .Slash)
      | '*' => scanLoop fuel (emitTok st .Star)
      | ';' => scanLoop fuel (emitTok st .Semicolon)
      | '?' => scanLoop fuel (emitTok st .QuestionMark)
      | ':' => scanLoop fuel (emitTok st .Colon)
      | '!' =>
          match st.it with
          | '=' :: _ => scanLoop fuel (emitTok (snext st).2 .BangEqual)
          | _ => scanLoop fuel (emitTok st .Bang)
      | '=' =>
          match st.it with
          | '=' :: _ => scanLoop fuel (emitTok (snext st).2 .EqualEqual)
          | _ => scanLoop fuel (emitTok st .Equal)
      | '>' =>
          match st.it with
          | '=' :: _ => scanLoop fuel (emitTok (snext st).2 .GreaterEqual)
          | _ => scanLoop fuel (emitTok st .Greater)
      | '<' =>
          match st.it with
          | '=' :: _ => scanLoop fuel (emitTok (snext st).2 .LessEqual)
          | _ => scanLoop fuel (emitTok st .Less)
      | '"' =>
          match stringFn c st.it st.cur with
          | (.ok t, it', cur') => scanLoop fuel (emitTok { st with it := it', cur := cur' } t)
          | (.error e, _, _) => .err e
      | '.' =>
          match st.it with
          | '.' :: _ => scanLoop fuel (emitTok (snext st).2 .Range)
          | c2 :: _ =>
              if c2.isDigit then
                let r := digitsLoop st.it st.cur ['.']
                let st' := { st with it := r.2.1, cur := r.2.2 }
                match st'.tokens.getLast? with
                | some ⟨.Number n, nloc⟩ =>
                    match parseF64 ((F64.fmt n).toList ++ r.1) with
                    | some v => scanLoop fuel { st' with tokens := replaceLast st'.tokens ⟨.Number v, nloc⟩ }
                    | none => .panicked
                | _ => .err ⟨st'.cur, "Unexpected character '.'"⟩
              else .err ⟨st.cur, "Unexpected character '.'"⟩
          | [] => .err ⟨st.cur, "Unexpected character '.'"⟩
      | _ =>
          if c.isDigit then
            match numberFn c st.it st.cur with
            | (.ok t, it', cur') => scanLoop fuel (emitTok { st with it := it', cur := cur' } t)
            | (.error e, _, _) => .err e
          else if c.isAlphanum then
            match identifierFn c st.it st.cur with
            | (t, it', cur') => scanLoop fuel (emitTok { st with it := it', cur := cur' } t)
          else .err ⟨st.cur, "Unexpected character " ++ String.mk [c]⟩

/-- scanner.rs `Scanner::scan` from a fresh scanner (line 1, column 1,
offset 0).  Every outer loop iteration consumes at least one character, so
`length + 1` units of fuel always reach the end-of-input arm. -/
def scan (source : String) : SOut :=
  scanLoop (source.toList.length + 1) ⟨source.toList, [], ⟨1, 1, 0⟩⟩

/-- Projection used by theorem statements: the token kinds of a successful
scan. -/
def SOut.kinds : SOut → Option (List Token)
  | .ok ts => some (ts.map LocToken.token)
  | _ => none

/-- ast.rs `Expr` (the variant set constructed by parser.rs and consumed by
interpreter.rs). -/
inductive Expr where
  | Assign (name : LocToken) (value : Expr)
  | Unary (op : LocToken) (right : Expr)
  | Binary (left : Expr) (op : LocToken) (right : Expr)
  | Call (callee : Expr) (args : List Expr)
  | Get (obj : Expr) (name : LocToken)
  | Set (obj : Expr) (name : LocToken) (value : Expr)
  | Grouping (e : Expr)
  | Literal (t : LocToken)
  | Logical (left : Expr) (op : LocToken) (right : Expr)
  | Super (kw : LocToken)
  | This (kw : LocToken)
  | Variable (name : LocToken)

/-- ast.rs `Stmt` (the variant set constructed by parser.rs and consumed by
interpreter.rs; `Return` stands for the declared-but-unexecutable variants
that fall into the evaluator's "Not Implemented" arm). -/
inductive Stmt where
  | Expression (e : Expr)
  | Log (e : Expr)
  | Declaration (name : LocToken) (initializer : Option Expr)
  | Block (stmts : List Stmt)
  | If (cond : Expr) (thenBranch : Stmt) (elseBranch : Option Stmt)
  | While (cond : Expr) (body : Stmt)
  | For (name : Option LocToken) (iterable : Expr) (body : Stmt)
  | Return (e : Option Expr)

/-- token.rs `Value`. -/
inductive Value where
  | Number (n : F64)
  | Range (startv endv : F64)
  | String (s : String)
  | Boolean (b : Bool)
  | Null
deriving DecidableEq, Repr

/-- token.rs `impl Display for Value` (what `log` prints). -/
def displayValue : Value → String
  | .Number n => n.fmt
  | .Range s e => s.fmt ++ ".." ++ e.fmt
  | .String s => s
  | .Boolean b => if b then "true" else "false"
  | .Null => "null"

/-- token.rs `Value::is_truthy`. -/
def Value.is_truthy : Value → Bool
  | .Boolean b => b
  | .Null => false
  | .String s => !s.isEmpty
  | _ => true

/-- token.rs `impl From<Token> for Value`.  The wildcard arm aborts the
process in the source; it is unreachable here because the only caller
guards with `is_valid_value`. -/
def valueFromToken : Token → Value
  | .Number n => .Number n
  | .String s => .String s
  | .True => .Boolean true
  | .False => .Boolean false
  | .Null => .Null
  | _ => .Null

/-- The same-variant test used by the claims about `==` / `!=`. -/
def sameVariant : Value → Value → Bool
  | .Number _, .Number _ => true
  | .Range _ _, .Range _ _ => true
  | .String _, .String _ => true
  | .Boolean _, .Boolean _ => true
  | .Null, .Null => true
  | _, _ => false

/-- The `comparison` computed in the `EqualEqual | BangEqual` arm of
interpreter.rs `Interpreter::evaluate` (lines 141-147): structural equality
for same-variant pairs (via `PartialEq` on `Value`), `false` for every other
pair — including two `Range`s, which fall through to the catch-all. -/
def eqComparison : Value → Value → Bool
  | .Number l, .Number r => F64.qeq l r
  | .String l, .String r => l == r
  | .Boolean l, .Boolean r => l == r
  | .Null, .Null => true
  | _, _ => false

/-- One scope's `HashMap<String, Value>` (environment.rs), as an association
list with overwrite-on-insert. -/
abbrev Frame := List (String × Value)

/-- `HashMap::insert`: overwrite the existing entry or append a new one. -/
def insertVar : Frame → String → Value → Frame
  | [], k, v => [(k, v)]
  | (k', v') :: rest, k, v =>
      if k' = k then (k', v) :: rest else (k', v') :: insertVar rest k v

/-- `HashMap::get`. -/
def lookupVar : Frame → String → Option Value
  | [], _ => none
  | (k', v') :: rest, k => if k' = k then some v' else lookupVar rest k

/-- environment.rs `Environment`: the scope chain, innermost frame first.
The `Rc<RefCell<_>>` links are represented positionally; the chain is
nonempty in every reachable state (the interpreter starts with one global
frame). -/
abbrev Env := List Frame

/-- environment.rs `Environment::get` (minus the error construction, done at
the call sites): search the chain innermost outward. -/
def getVar : Env → String → Option Value
  | [], _ => none
  | f :: rest, k =>
      match lookupVar f k with
      | some v => some v
      | none => getVar rest k

/-- environment.rs `Environment::assign`: mutate the innermost scope that
defines the name; `none` models the "Undefined variable" error. -/
def assignVar : Env → String → Value → Option Env
  | [], _, _ => none
  | f :: rest, k, v =>
      if (lookupVar f k).isSome then some (insertVar f k v :: rest)
      else
        match assignVar rest k v with
        | some rest' => some (f :: rest')
        | none => none

/-- environment.rs `Environment::define`: insert into the current (innermost)
scope only.  The nil case cannot arise (the chain always carries the global
frame); it returns nil so that `defineVar` preserves chain length
unconditionally. -/
def defineVar : Env → String → Value → Env
  | [], _, _ => []
  | f :: rest, k, v => insertVar f k v :: rest

/-- interpreter.rs `Interpreter::execute`'s restore step
`self.env = previous.borrow().clone()`: the RefCell saved on entry holds the
pre-entry chain, into which the body's writes to enclosing scopes have
flowed through the shared links — positionally, the frames of the current
chain below the entry depth.  Restoring therefore drops the frames pushed
above the saved depth. -/
def restoreEnv (saved cur : Env) : Env := cur.drop (cur.length - saved.length)

/-- The evaluator's mutable state: the current environment plus the lines
printed to stdout (by `log` and by the not-implemented-expression warning). -/
structure InterpState where
  env : Env
  output : List String
deriving DecidableEq, Repr

/-- Results of evaluating an expression or executing a statement.
`panicked` models `panic!` (including `unwrap` failures and the `panic!()`
inside `get_loc_token_from_expr` for `Call`); `timeout` is the
fuel-exhaustion artifact of the embedding. -/
inductive Outcome where
  | ok (v : Value)
  | err (e : Error)
  | panicked
  | timeout
deriving DecidableEq, Repr

/-- The `?` operator on an evaluation result: continue on `Ok`, propagate
everything else together with the state at that point. -/
def andThenV (r : Outcome × InterpState)
    (f : Value → InterpState → Outcome × InterpState) : Outcome × InterpState :=
  match r with
  | (.ok v, st) => f v st
  | (.err e, st) => (.err e, st)
  | (.panicked, st) => (.panicked, st)
  | (.timeout, st) => (.timeout, st)

/-- interpreter.rs `Interpreter::get_loc_token_from_expr`.  `none` models the
`panic!()` in the `Call` arm. -/
def get_loc_token_from_expr : Expr → Option LocToken
  | .Literal t => some t
  | .Grouping e => get_loc_token_from_expr e
  | .Assign t _ => some t
  | .Variable t => some t
  | .Unary t _ => some t
  | .Get _ t => some t
  | .Set _ t _ => some t
  | .Logical _ t _ => some t
  | .Super t => some t
  | .This t => some t
  | .Binary _ t _ => some t
  | .Call _ _ => none

/-- The unary-operator dispatch of interpreter.rs `Interpreter::evaluate`
(lines 37-55), applied to the evaluated operand: a pure `Outcome` — the
source arms never touch the evaluator state. -/
def unaryOp (op : LocToken) (right : Value) : Outcome :=
  match op.token with
  | .Minus =>
      match right with
      | .Number n => .ok (.Number (F64.neg n))
      | _ => .err ⟨op.loc, "Runtime Error: Cannot negate non 'Number' expression."⟩
  | .Bang =>
      match right with
      | .Boolean b => .ok (.Boolean (!b))
      | _ => .err ⟨op.loc, "Runtime Error: Cannot negate non 'Boolean' expression."⟩
  | _ => .err ⟨op.loc, "Runtime Error: Invalid unary operator"⟩

/-- The binary-operator dispatch of interpreter.rs `Interpreter::evaluate`
(lines 60-172), applied after both operands have been evaluated: a pure
`Outcome` — the source arms never touch the evaluator state. -/
def binaryOp (op : LocToken) (left right : Value) : Outcome :=
  match op.token with
  | .Plus =>
      match left with
      | .Number l =>
          match right with
          | .Number r => .ok (.Number (F64.add l r))
          | .String r => .ok (.String (l.fmt ++ r))
          | _ => .err ⟨op.loc, "Runtime Error: Cannot add 'Number' with anything but 'Number' or 'String' or an expression evaluating to it"⟩
      | .String l =>
          match right with
          | .Number r => .ok (.String (l ++ r.fmt))
          | .String r => .ok (.String (l ++ r))
          | _ => .err ⟨op.loc, "Runtime Error: Cannot add 'String' with anything but 'String' or 'Number' or an expression evaluating to it"⟩
      | _ => .err ⟨op.loc, "Runtime Error: Cannot add anything to a non 'Number' or 'String' expression."⟩
  | .Minus =>
      match left with
      | .Number l =>
          match right with
          | .Number r => .ok (.Number (F64.sub l r))
          | _ => .err ⟨op.loc, "Runtime Error: Cannot subtract 'Number' with anything but 'Number' or an expression evaluating to it"⟩
      | _ => .err ⟨op.loc, "Runtime Error: Cannot subtract anything from a non 'Number' expression."⟩
  | .Star =>
      match left with
      | .Number l =>
          match right with
          | .Number r => .ok (.Number (F64.mul l r))
          | .String r => .ok (.String (strRepeat r (usizeSat l.round)))
          | _ => .err ⟨op.loc, "Runtime Error: Cannot multiply 'Number' with anything but 'Number' or 'String' or an expression evaluating to it"⟩
      | .String l =>
          match right with
          | .Number r => .ok (.String (strRepeat l (usizeSat r.round)))
          | _ => .err ⟨op.loc, "Runtime Error: Cannot multiply 'String' with anything but 'Number' or an expression evaluating to it"⟩
      | _ => .err ⟨op.loc, "Runtime Error: Cannot multiply anything with a non 'Number' or 'String' expression."⟩
  | .Slash =>
      match right with
      | .Number r =>
          if F64.qeq r f64Zero then
            .err ⟨op.loc, "Runtime Error: Division by zero."⟩
          else
            match left with
            | .Number l => .ok (.Number (F64.div l r))
            | _ => .err ⟨op.loc, "Runtime Error: Cannot divide anything but 'Number' or an expression evaluating to it"⟩
      | _ => .err ⟨op.loc, "Runtime Error: Cannot divide by anything but 'Number' or an expression evaluating to it"⟩
  | .Range =>
      match left with
      | .Number l =>
          match right with
          | .Number r => .ok (.Range l r)
          | _ => .err ⟨op.loc, "Runtime Error: Cannot create a range with anything but 'Number' or an expression evaluating to it"⟩
      | _ => .err ⟨op.loc, "Runtime Error: Cannot create a range with anything but 'Number' or an expression evaluating to it"⟩
  | .EqualEqual =>
      .ok (.Boolean (if Token.kindEq op.token .EqualEqual then eqComparison left right else !eqComparison left right))
  | .BangEqual =>
      .ok (.Boolean (if Token.kindEq op.token .EqualEqual then eqComparison left right else !eqComparison left right))
  | .Greater =>
      match left with
      | .Number l =>
          match right with
          | .Number r => .ok (.Boolean (F64.bgt l r))
          | _ => .err ⟨op.loc, "Runtime Error: Cannot compare 'Number' with anything but 'Number' or an expression evaluating to it"⟩
      | _ => .err ⟨op.loc, "Runtime Error: Cannot compare anything with a non 'Number' expression."⟩
  | .GreaterEqual =>
      match left with
      | .Number l =>
          match right with
          | .Number r => .ok (.Boolean (F64.bge l r))
          | _ => .err ⟨op.loc, "Runtime Error: Cannot compare 'Number' with anything but 'Number' or an expression evaluating to it"⟩
      | _ => .err ⟨op.loc, "Runtime Error: Cannot compare anything with a non 'Number' expression."⟩
  | .Less =>
      match left with
      | .Number l =>
          match right with
          | .Number r => .ok (.Boolean (F64.blt l r))
          | _ => .err ⟨op.loc, "Runtime Error: Cannot compare 'Number' with anything but 'Number' or an expression evaluating to it"⟩
      | _ => .err ⟨op.loc, "Runtime Error: Cannot compare anything with a non 'Number' expression."⟩
  | .LessEqual =>
      match left with
      | .Number l =>
          match right with
          | .Number r => .ok (.Boolean (F64.ble l r))
          | _ => .err ⟨op.loc, "Runtime Error: Cannot compare 'Number' with anything but 'Number' or an expression evaluating to it"⟩
      | _ => .err ⟨op.loc, "Runtime Error: Cannot compare anything with a non 'Number' expression."⟩
  | _ => .err ⟨op.loc, "Runtime Error: Invalid binary operator"⟩

/-- The final operator dispatch of the `Logical` arm of
interpreter.rs `Interpreter::evaluate` (lines 197-202), applied after both
truthiness coercions: a pure `Outcome`. -/
def logicalOp (op : LocToken) (left right : Bool) : Outcome :=
  match op.token with
  | .Or => .ok (.Boolean (left || right))
  | .Xor => .ok (.Boolean (xor left right))
  | .And => .ok (.Boolean (left && right))
  | _ => .err ⟨op.loc, "Runtime Error: Invalid logical operator. How did you do that bro?"⟩

/-- The stdout warning printed by the not-implemented expression arms
(interpreter.rs lines 205-228). -/
def warnLine : String := "Warning: Called evaluate expr on a non implemented operation!"

/-- interpreter.rs `Interpreter::evaluate`. -/
def evaluate : Expr → InterpState → Outcome × InterpState
  | .Literal t, st =>
      if t.token.is_valid_value then (.ok (valueFromToken t.token), st)
      else (.err ⟨t.loc, "Runtime Error: Invalid literal value."⟩, st)
  | .Grouping e, st => evaluate e st
  | .Unary op re, st =>
      andThenV (evaluate re st) fun right st1 => (unaryOp op right, st1)
  | .Binary le op re, st =>
      andThenV (evaluate le st) fun left st1 =>
        andThenV (evaluate re st1) fun right st2 =>
          (binaryOp op left right, st2)
  | .Variable t, st =>
      match getVar st.env (tokStr t.token) with
      | none => (.err ⟨t.loc, "Undefined variable '" ++ tokStr t.token ++ "'."⟩, st)
      | some .Null => (.err ⟨t.loc, "Runtime Error: Cannot use variable '" ++ tokStr t.token ++ "' before assignment."⟩, st)
      | some v => (.ok v, st)
  | .Assign t ve, st =>
      andThenV (evaluate ve st) fun v st1 =>
        match assignVar st1.env (tokStr t.token) v with
        | some env' => (.ok v, { st1 with env := env' })
        | none => (.err ⟨t.loc, "Undefined variable '" ++ tokStr t.token ++ "'."⟩, st1)
  | .Logical le op re, st =>
      andThenV (evaluate le st) fun lv st1 =>
        let left := lv.is_truthy
        if Token.kindEq op.token .Or && left then (.ok (.Boolean true), st1)
        else if Token.kindEq op.token .And && !left then (.ok (.Boolean false), st1)
        else
          andThenV (evaluate re st1) fun rv st2 =>
            (logicalOp op left rv.is_truthy, st2)
  | .Call _ _, st => (.ok .Null, { st with output := st.output ++ [warnLine] })
  | .Get _ _, st => (.ok .Null, { st with output := st.output ++ [warnLine] })
  | .Set _ _ _, st => (.ok .Null, { st with output := st.output ++ [warnLine] })
  | .Super _, st => (.ok .Null, { st with output := st.output ++ [warnLine] })
  | .This _, st => (.ok .Null, { st with output := st.output ++ [warnLine] })

/-- The "For loop variable must be a number." error (interpreter.rs lines
316 and 323), located at the iterable's token — whose extraction panics for
a `Call` iterable. -/
def forVarErr (iterLoc : Option LocToken) (st : InterpState) :
    Outcome × InterpState :=
  match iterLoc with
  | some lt => (.err ⟨lt.loc, "Runtime Error: For loop variable must be a number."⟩, st)
  | none => (.panicked, st)

/-- Work items of the mutually recursive statement-execution loops of
interpreter.rs `Interpreter::execute`, merged into one fuel-indexed
function so that every recursion is structural on the fuel:
`stmt` is `execute`, `seq` is the statement loop of the `Block` arm,
`whileIter` is the `While` loop, and `forIter` is the `while let` loop of
the `For` arm (with the precomputed range end and iterable location). -/
inductive Task where
  | stmt (s : Stmt)
  | seq (l : List Stmt) (acc : Outcome)
  | whileIter (cond : Expr) (body : Stmt)
  | forIter (actual : LocToken) (rend : F64) (body : Stmt) (iterLoc : Option LocToken)

/-- The `Stmt::Block` arm of interpreter.rs `Interpreter::execute` (lines
254-263), parameterized by the recursive executor: save the current chain,
run the statement loop in a fresh child scope, and restore the saved chain
afterwards — except on a panic (or the embedding's fuel artifact), which
unwinds without restoring. -/
def blockArm (exec : Task → InterpState → Outcome × InterpState)
    (stmts : List Stmt) (st : InterpState) : Outcome × InterpState :=
  let saved := st.env
  let r := exec (.seq stmts (.ok .Null)) { st with env := [] :: st.env }
  match r.1 with
  | .timeout => r
  | .panicked => r
  | out => (out, { r.2 with env := restoreEnv saved r.2.env })

/-- The statement loop of the `Stmt::Block` arm (interpreter.rs lines
257-260): every statement runs, each result OVERWRITING the accumulator —
an error does not stop the loop and is lost unless it comes from the last
statement. -/
def seqArm (exec : Task → InterpState → Outcome × InterpState) :
    List Stmt → Outcome → InterpState → Outcome × InterpState
  | [], acc, st => (acc, st)
  | s :: rest, _, st =>
      let r := exec (.stmt s) st
      match r.1 with
      | .timeout => r
      | .panicked => r
      | out => exec (.seq rest out) r.2

/-- The `Stmt::If` arm of interpreter.rs `Interpreter::execute` (lines
265-279). -/
def ifArm (exec : Task → InterpState → Outcome × InterpState)
    (cond : Expr) (thenBranch : Stmt) (elseBranch : Option Stmt)
    (st : InterpState) : Outcome × InterpState :=
  match evaluate cond st with
  | (.ok (.Boolean b), st1) =>
      if b then exec (.stmt thenBranch) st1
      else
        match elseBranch with
        | some e => exec (.stmt e) st1
        | none => (.ok .Null, st1)
  | (.ok _, st1) =>
      match get_loc_token_from_expr cond with
      | some lt => (.err ⟨lt.loc, "Runtime Error: Invalid condition."⟩, st1)
      | none => (.panicked, st1)
  | other => other

/-- Lines 302-328 of the `Stmt::For` arm, after the loop variable's token
`actual` has been determined and the child scope pushed (`st2`): bind the
variable to the range start, check it (dead — it was just defined as a
Number), run the `while let` loop, then — line 326 — execute the body ONCE
MORE, and only then restore the saved chain.  The error paths (`?` and the
early `return`s) propagate without restoring the chain. -/
def forArmTail (exec : Task → InterpState → Outcome × InterpState)
    (iterable : Expr) (body : Stmt) (saved : Env) (actual : LocToken)
    (l r : F64) (st2 : InterpState) : Outcome × InterpState :=
  let st3 := { st2 with env := defineVar st2.env (tokStr actual.token) (.Number l) }
  match getVar st3.env (tokStr actual.token) with
  | none => (.panicked, st3)
  | some (.Number _) =>
      andThenV (exec (.forIter actual r body (get_loc_token_from_expr iterable)) st3)
        fun _ st4 =>
          andThenV (exec (.stmt body) st4) fun _ st5 =>
            (.ok .Null, { st5 with env := restoreEnv saved st5.env })
  | some _ => forVarErr (get_loc_token_from_expr iterable) st3

/-- The `Stmt::For` arm of interpreter.rs `Interpreter::execute` (lines
288-329): evaluate the iterable (must be a `Range`), push a child scope,
determine the loop variable's token (defaulting to a synthesized `i` at the
iterable's location — a panic for a `Call` iterable), and continue with
`forArmTail`. -/
def forArm (exec : Task → InterpState → Outcome × InterpState)
    (name : Option LocToken) (iterable : Expr) (body : Stmt)
    (st : InterpState) : Outcome × InterpState :=
  match evaluate iterable st with
  | (.ok (.Range l r), st1) =>
      let saved := st1.env
      let st2 := { st1 with env := [] :: st1.env }
      let actualOpt :=
        match name with
        | some n => some n
        | none => (get_loc_token_from_expr iterable).map
            fun (lt : LocToken) => (⟨.Identifier "i", lt.loc⟩ : LocToken)
      match actualOpt with
      | none => (.panicked, st2)
      | some actual => forArmTail exec iterable body saved actual l r st2
  | (.ok _, st1) =>
      match get_loc_token_from_expr iterable with
      | some lt => (.err ⟨lt.loc, "Runtime Error: For loop iterable must be a range."⟩, st1)
      | none => (.panicked, st1)
  | other => other

/-- The `Stmt::While` loop of interpreter.rs `Interpreter::execute` (lines
281-286). -/
def whileIterArm (exec : Task → InterpState → Outcome × InterpState)
    (cond : Expr) (body : Stmt) (st : InterpState) : Outcome × InterpState :=
  match evaluate cond st with
  | (.ok v, st1) =>
      if v.is_truthy then
        andThenV (exec (.stmt body) st1) fun _ st2 => exec (.whileIter cond body) st2
      else (.ok .Null, st1)
  | other => other

/-- The `while let` loop of the `Stmt::For` arm (interpreter.rs lines
311-325): read the loop variable (`unwrap`), run the body, re-read and
increment by `1.0`, re-read and break once the value reaches or exceeds the
range end. -/
def forIterArm (exec : Task → InterpState → Outcome × InterpState)
    (actual : LocToken) (rend : F64) (body : Stmt) (iterLoc : Option LocToken)
    (st : InterpState) : Outcome × InterpState :=
  match getVar st.env (tokStr actual.token) with
  | none => (.panicked, st)
  | some (.Number _) =>
      andThenV (exec (.stmt body) st) fun _ st1 =>
        match getVar st1.env (tokStr actual.token) with
        | none => (.panicked, st1)
        | some (.Number i) =>
            match assignVar st1.env (tokStr actual.token) (.Number (F64.add i f64One)) with
            | none => (.err ⟨actual.loc, "Undefined variable '" ++ tokStr actual.token ++ "'."⟩, st1)
            | some env' =>
                let st2 := { st1 with env := env' }
                match getVar st2.env (tokStr actual.token) with
                | none => (.panicked, st2)
                | some (.Number newI) =>
                    if F64.bge newI rend then (.ok .Null, st2)
                    else exec (.forIter actual rend body iterLoc) st2
                | some _ => forVarErr iterLoc st2
        | some _ => forVarErr iterLoc st1
  | some _ => (.ok .Null, st)

/-- interpreter.rs `Interpreter::execute` and its statement loops.  Fuel
decreases on every recursive call; `timeout` is unreachable for sufficient
fuel and is treated as an abort (like a panic) wherever the source has no
corresponding behavior. -/
def execT : Nat → Task → InterpState → Outcome × InterpState
  | 0, _, st => (.timeout, st)
  | fuel + 1, task, st =>
    match task with
    | .stmt s =>
      match s with
      | .Expression e => evaluate e st
      | .Log e =>
          match evaluate e st with
          | (.ok v, st1) => (.ok v, { st1 with output := st1.output ++ [displayValue v] })
          | other => other
      | .Declaration name init =>
          match init with
          | some i =>
              andThenV (evaluate i st) fun v st1 =>
                (.ok .Null, { st1 with env := defineVar st1.env (tokStr name.token) v })
          | none => (.ok .Null, { st with env := defineVar st.env (tokStr name.token) .Null })
      | .Block stmts => blockArm (execT fuel) stmts st
      | .If cond thenBranch elseBranch => ifArm (execT fuel) cond thenBranch elseBranch st
      | .While cond body => execT fuel (.whileIter cond body) st
      | .For name iterable body => forArm (execT fuel) name iterable body st
      | .Return _ => (.err ⟨⟨0, 0, 0⟩, "Runtime Error: Not Implemented."⟩, st)
    | .seq l acc => seqArm (execT fuel) l acc st
    | .whileIter cond body => whileIterArm (execT fuel) cond body st
    | .forIter actual rend body iterLoc => forIterArm (execT fuel) actual rend body iterLoc st

/-- interpreter.rs `Interpreter::interpret`: execute the statements in order,
stopping at the first non-`Ok` result; `Ok(())` is modeled as `ok Null`. -/
def interpret (fuel : Nat) : List Stmt → InterpState → Outcome × InterpState
  | [], st => (.ok .Null, st)
  | s :: rest, st =>
      match execT fuel (.stmt s) st with
      | (.ok _, st') => interpret fuel rest st'
      | other => other

/-- parser.rs `Parser` state: the token list and the cursor. -/
structure PSt where
  tokens : List LocToken
  cur : Nat
deriving DecidableEq, Repr

/-- Parser results.  `exit0` models the `process::exit(0)` inside
`Parser::peek` when the cursor runs past the token list; `panicked` models
the index panic of `Parser::previous` at cursor 0 or out of bounds;
`timeout` is the fuel artifact of the embedding. -/
inductive PRes (α : Type) where
  | ok (a : α) (st : PSt)
  | err (e : Error)
  | exit0
  | panicked
  | timeout

/-- The parser's state-threading monad over `PRes`. -/
def PM (α : Type) : Type := PSt → PRes α

instance : Monad PM where
  pure a := fun st => .ok a st
  bind x f := fun st =>
    match x st with
    | .ok a st' => f a st'
    | .err e => .err e
    | .exit0 => .exit0
    | .panicked => .panicked
    | .timeout => .timeout

/-- Raise a parse error (`return Err(...)`). -/
def perr {α : Type} (e : Error) : PM α := fun _ => .err e

/-- Fuel exhaustion (artifact of the embedding). -/
def ptimeout {α : Type} : PM α := fun _ => .timeout

/-- parser.rs `Parser::peek`: clone the token under the cursor, or
`process::exit(0)` when out of range. -/
def peekP : PM LocToken := fun st =>
  match st.tokens.get? st.cur with
  | some t => .ok t st
  | none => .exit0

/-- parser.rs `Parser::previous`: `tokens[cur - 1]`, an index panic at
cursor 0 or past the end. -/
def previousP : PM LocToken := fun st =>
  match st.cur with
  | 0 => .panicked
  | n + 1 =>
      match st.tokens.get? n with
      | some t => .ok t st
      | none => .panicked

/-- parser.rs `Parser::is_at_end`. -/
def is_at_endP : PM Bool := do
  let t ← peekP
  pure (Token.kindEq t.token .Eof)

/-- Cursor increment inside `Parser::advance`. -/
def bumpCur : PM Unit := fun st => .ok () { st with cur := st.cur + 1 }

/-- parser.rs `Parser::advance`. -/
def advanceP : PM LocToken := do
  let e ← is_at_endP
  if !e then bumpCur else pure ()
  previousP

/-- parser.rs `Parser::check` (token comparison is kind equality). -/
def checkP (t : Token) : PM Bool := do
  let e ← is_at_endP
  if e then pure false
  else do
    let pk ← peekP
    pure (Token.kindEq pk.token t)

/-- parser.rs `Parser::consume`. -/
def consumeP (t : Token) : PM LocToken := do
  let c ← checkP t
  if c then advanceP
  else do
    let pk ← peekP
    perr ⟨pk.loc, "Expected closing '" ++ tokStr t ++ "' after statement."⟩

/-- The body of the parser's `cmp!` macro: for EACH listed kind in order,
if the current token matches it, advance; the result is whether any kind
matched.  (Note the macro does not stop at the first match: a `;` followed
by a newline is consumed entirely by one `cmp!(Semicolon, Newline)`.) -/
def cmpGo : List Token → Bool → PM Bool
  | [], m => pure m
  | t :: ts, m => do
      let c ← checkP t
      if c then do
        let _ ← advanceP
        cmpGo ts true
      else cmpGo ts m

/-- parser.rs `cmp!`. -/
def cmpP (ts : List Token) : PM Bool := cmpGo ts false

/-- parser.rs `Parser::end_statement`.  (`check(Eof)` is always false — at
end of input `is_at_end` short-circuits it — so end-of-input does NOT
terminate a statement.) -/
def end_statementP : PM Unit := do
  let m ← cmpP [.Semicolon, .Newline, .Eof]
  if m then pure ()
  else do
    let pk ← peekP
    perr ⟨pk.loc, "Expected ';' or newline after statement."⟩

/-- parser.rs `Parser::end_statement_if_not_else`. -/
def end_statement_if_not_elseP : PM Unit := do
  let m ← cmpP [.Semicolon, .Newline, .Eof]
  if m then pure ()
  else do
    let pk ← peekP
    if Token.kindEq pk.token .Else then pure ()
    else perr ⟨pk.loc, "Expected ';' or newline after statement."⟩

mutual

/-- parser.rs `Parser::declaration`. -/
def declarationP : Nat → PM Stmt
  | 0 => ptimeout
  | fuel + 1 => do
      let m ← cmpP [.Var]
      if m then variableP fuel else statementP fuel

/-- parser.rs `Parser::statement`. -/
def statementP : Nat → PM Stmt
  | 0 => ptimeout
  | fuel + 1 => do
      if ← cmpP [.If] then if_statementP fuel
      else if ← cmpP [.Log] then logP fuel
      else if ← cmpP [.While] then while_loopP fuel
      else if ← cmpP [.For] then for_loopP fuel
      else if ← cmpP [.LeftBrace] then do
        let l ← blockP fuel
        pure (Stmt.Block l)
      else expression_statementP fuel

/-- parser.rs `Parser::if_statement`. -/
def if_statementP : Nat → PM Stmt
  | 0 => ptimeout
  | fuel + 1 => do
      let condition ← expressionP fuel
      let _ ← cmpP [.Newline]
      let then_branch ← statementP fuel
      let _ ← cmpP [.Newline]
      let m ← cmpP [.Else]
      if m then do
        let _ ← cmpP [.Newline]
        let e ← statementP fuel
        pure (Stmt.If condition then_branch (some e))
      else pure (Stmt.If condition then_branch none)

/-- parser.rs `Parser::while_loop`. -/
def while_loopP : Nat → PM Stmt
  | 0 => ptimeout
  | fuel + 1 => do
      let condition ← expressionP fuel
      let _ ← cmpP [.Newline]
      let body ← statementP fuel
      pure (Stmt.While condition body)

/-- parser.rs `Parser::for_loop`.  Note there is no `in` keyword anywhere:
after the optional bound identifier the parser goes straight to `range`. -/
def for_loopP : Nat → PM Stmt
  | 0 => ptimeout
  | fuel + 1 => do
      let pk ← peekP
      let var ← (match pk.token with
        | .Identifier _ => do
            let _ ← advanceP
            let p ← previousP
            pure (some p)
        | _ => pure (none : Option LocToken))
      let iterable ← rangeEP fuel
      let _ ← cmpP [.Newline]
      let body ← statementP fuel
      pure (Stmt.For var iterable body)

/-- parser.rs `Parser::block`: skip leading newlines, collect declarations
until `}` or end of input, consume the `}`. -/
def blockP : Nat → PM (List Stmt)
  | 0 => ptimeout
  | fuel + 1 => do
      blockSkipNLP fuel
      let stmts ← blockLoopP fuel []
      let _ ← consumeP .RightBrace
      pure stmts

/-- The leading-newline loop of parser.rs `Parser::block`. -/
def blockSkipNLP : Nat → PM Unit
  | 0 => ptimeout
  | fuel + 1 => do
      let c ← checkP .Newline
      if c then do
        let _ ← advanceP
        blockSkipNLP fuel
      else pure ()

/-- The declaration loop of parser.rs `Parser::block`. -/
def blockLoopP : Nat → List Stmt → PM (List Stmt)
  | 0, _ => ptimeout
  | fuel + 1, acc => do
      let c ← checkP .RightBrace
      let e ← is_at_endP
      if !c && !e then do
        let s ← declarationP fuel
        blockLoopP fuel (acc ++ [s])
      else pure acc

/-- parser.rs `Parser::variable`. -/
def variableP : Nat → PM Stmt
  | 0 => ptimeout
  | fuel + 1 => do
      let name ← consumeP (.Identifier "")
      let m ← cmpP [.Equal]
      if m then do
        let i ← expressionP fuel
        end_statementP
        pure (Stmt.Declaration name (some i))
      else do
        end_statementP
        pure (Stmt.Declaration name none)

/-- parser.rs `Parser::log`. -/
def logP : Nat → PM Stmt
  | 0 => ptimeout
  | fuel + 1 => do
      let e ← expressionP fuel
      end_statement_if_not_elseP
      pure (Stmt.Log e)

/-- parser.rs `Parser::expression_statement`.  The source DISCARDS the
result of `end_statement_if_not_else()` (no `?`): a missing terminator is
silently ignored.  On that error path no token was consumed, so the state
is the one before the check. -/
def expression_statementP : Nat → PM Stmt
  | 0 => ptimeout
  | fuel + 1 => do
      let e ← expressionP fuel
      fun st =>
        match end_statement_if_not_elseP st with
        | .ok _ st' => .ok (Stmt.Expression e) st'
        | .err _ => .ok (Stmt.Expression e) st
        | .exit0 => .exit0
        | .panicked => .panicked
        | .timeout => .timeout

/-- parser.rs `Parser::expression`. -/
def expressionP : Nat → PM Expr
  | 0 => ptimeout
  | fuel + 1 => assignmentP fuel

/-- parser.rs `Parser::assignment`. -/
def assignmentP : Nat → PM Expr
  | 0 => ptimeout
  | fuel + 1 => do
      let e ← orEP fuel
      let m ← cmpP [.Equal]
      if m then do
        let equals ← previousP
        let value ← assignmentP fuel
        match e with
        | .Variable name => pure (Expr.Assign name value)
        | _ => perr ⟨equals.loc, "Invalid assignment target."⟩
      else pure e

/-- parser.rs `Parser::or`. -/
def orEP : Nat → PM Expr
  | 0 => ptimeout
  | fuel + 1 => do
      let e ← andEP fuel
      orLoopP fuel e

/-- The operator loop of parser.rs `Parser::or`. -/
def orLoopP : Nat → Expr → PM Expr
  | 0, _ => ptimeout
  | fuel + 1, e => do
      let m ← cmpP [.Or, .Xor]
      if m then do
        let op ← previousP
        let right ← andEP fuel
        orLoopP fuel (Expr.Logical e op right)
      else pure e

/-- parser.rs `Parser::and`. -/
def andEP : Nat → PM Expr
  | 0 => ptimeout
  | fuel + 1 => do
      let e ← equalityP fuel
      andLoopP fuel e

/-- The operator loop of parser.rs `Parser::and`. -/
def andLoopP : Nat → Expr → PM Expr
  | 0, _ => ptimeout
  | fuel + 1, e => do
      let m ← cmpP [.And]
      if m then do
        let op ← previousP
        let right ← equalityP fuel
        andLoopP fuel (Expr.Logical e op right)
      else pure e

/-- parser.rs `Parser::equality`. -/
def equalityP : Nat → PM Expr
  | 0 => ptimeout
  | fuel + 1 => do
      let e ← comparisonP fuel
      equalityLoopP fuel e

/-- The operator loop of parser.rs `Parser::equality`. -/
def equalityLoopP : Nat → Expr → PM Expr
  | 0, _ => ptimeout
  | fuel + 1, e => do
      let m ← cmpP [.BangEqual, .EqualEqual]
      if m then do
        let op ← previousP
        let right ← comparisonP fuel
        equalityLoopP fuel (Expr.Binary e op right)
      else pure e

/-- parser.rs `Parser::comparison`. -/
def comparisonP : Nat → PM Expr
  | 0 => ptimeout
  | fuel + 1 => do
      let e ← termP fuel
      comparisonLoopP fuel e

/-- The operator loop of parser.rs `Parser::comparison`. -/
def comparisonLoopP : Nat → Expr → PM Expr
  | 0, _ => ptimeout
  | fuel + 1, e => do
      let m ← cmpP [.Greater, .GreaterEqual, .Less, .LessEqual]
      if m then do
        let op ← previousP
        let right ← termP fuel
        comparisonLoopP fuel (Expr.Binary e op right)
      else pure e

/-- parser.rs `Parser::term`. -/
def termP : Nat → PM Expr
  | 0 => ptimeout
  | fuel + 1 => do
      let e ← factorP fuel
      termLoopP fuel e

/-- The operator loop of parser.rs `Parser::term`. -/
def termLoopP : Nat → Expr → PM Expr
  | 0, _ => ptimeout
  | fuel + 1, e => do
      let m ← cmpP [.Minus, .Plus]
      if m then do
        let op ← previousP
        let right ← factorP fuel
        termLoopP fuel (Expr.Binary e op right)
      else pure e

/-- parser.rs `Parser::factor` (left operand comes from `range`, right
operands from `unary`, as in the source). -/
def factorP : Nat → PM Expr
  | 0 => ptimeout
  | fuel + 1 => do
      let e ← rangeEP fuel
      factorLoopP fuel e

/-- The operator loop of parser.rs `Parser::factor`. -/
def factorLoopP : Nat → Expr → PM Expr
  | 0, _ => ptimeout
  | fuel + 1, e => do
      let m ← cmpP [.Slash, .Star]
      if m then do
        let op ← previousP
        let right ← unaryP fuel
        factorLoopP fuel (Expr.Binary e op right)
      else pure e

/-- parser.rs `Parser::range`. -/
def rangeEP : Nat → PM Expr
  | 0 => ptimeout
  | fuel + 1 => do
      let e ← unaryP fuel
      rangeLoopP fuel e

/-- The operator loop of parser.rs `Parser::range`. -/
def rangeLoopP : Nat → Expr → PM Expr
  | 0, _ => ptimeout
  | fuel + 1, e => do
      let m ← cmpP [.Range]
      if m then do
        let op ← previousP
        let right ← unaryP fuel
        rangeLoopP fuel (Expr.Binary e op right)
      else pure e

/-- parser.rs `Parser::unary`. -/
def unaryP : Nat → PM Expr
  | 0 => ptimeout
  | fuel + 1 => do
      let m ← cmpP [.Bang, .Minus]
      if m then do
        let op ← previousP
        let right ← unaryP fuel
        pure (Expr.Unary op right)
      else primaryP fuel

/-- parser.rs `Parser::primary`. -/
def primaryP : Nat → PM Expr
  | 0 => ptimeout
  | fuel + 1 => do
      let token ← peekP
      match token.token with
      | .False => do
          let _ ← advanceP
          pure (Expr.Literal token)
      | .True => do
          let _ ← advanceP
          pure (Expr.Literal token)
      | .Null => do
          let _ ← advanceP
          pure (Expr.Literal token)
      | .Number _ => do
          let _ ← advanceP
          pure (Expr.Literal token)
      | .String _ => do
          let _ ← advanceP
          pure (Expr.Literal token)
      | .Identifier _ => do
          let _ ← advanceP
          pure (Expr.Variable token)
      | .LeftParen => do
          let _ ← advanceP
          let e ← expressionP fuel
          let _ ← consumeP .RightParen
          pure (Expr.Grouping e)
      | _ => perr ⟨token.loc, "Expected expression, but found '" ++ tokStr token.token ++ "'."⟩

end

/-- The statement loop of parser.rs `Parser::parse`. -/
def parseLoopP : Nat → List Stmt → PM (List Stmt)
  | 0, _ => ptimeout
  | fuel + 1, acc => do
      let e ← is_at_endP
      if e then pure acc
      else do
        let m ← cmpP [.Semicolon, .Newline]
        if m then parseLoopP fuel acc
        else do
          let s ← declarationP fuel
          parseLoopP fuel (acc ++ [s])

/-- parser.rs `Parser::parse` on a token list, from cursor 0. -/
def parseTokens (fuel : Nat) (tokens : List LocToken) : PRes (List Stmt) :=
  parseLoopP fuel [] ⟨tokens, 0⟩

/-- Results of icps.rs `run`. -/
inductive RunOut where
  | ok
  | err (e : Error)
  | exit0
  | panicked
  | timeout
deriving DecidableEq, Repr

/-- Whether a run succeeded. -/
def RunOut.isOk : RunOut → Bool
  | .ok => true
  | _ => false

/-- Whether a run returned an `Error` value. -/
def RunOut.isErr : RunOut → Bool
  | .err _ => true
  | _ => false

/-- icps.rs `run` driven from a fresh `Interpreter` (a single empty global
scope), as `run_file` does: scan, parse, interpret, forwarding the first
error.  Returns the result together with the lines printed to stdout. -/
def runProg (fuel : Nat) (source : String) : RunOut × List String :=
  match scan source with
  | .ok tokens =>
      match parseTokens fuel tokens with
      | .ok stmts _ =>
          match interpret fuel stmts ⟨[[]], []⟩ with
          | (.ok _, st) => (.ok, st.output)
          | (.err e, st) => (.err e, st.output)
          | (.panicked, st) => (.panicked, st.output)
          | (.timeout, st) => (.timeout, st.output)
      | .err e => (.err e, [])
      | .exit0 => (.exit0, [])
      | .panicked => (.panicked, [])
      | .timeout => (.timeout, [])
  | .err e => (.err e, [])
  | .panicked => (.panicked, [])
  | .timeout => (.timeout, [])

/-! ### Concrete programs exercised by the claims, with the token and
statement lists they scan and parse to (each equality is established by
kernel computation in the corresponding claim's proof). -/

/-- The block program of claim C2: an erroring statement (`y` undefined)
followed by a successful one, inside a block. -/
def c2Src : String := "\x7b\nlog y\nlog 2\n\x7d\n"

def c2Toks : List LocToken :=
  [⟨.LeftBrace, ⟨1, 1, 0⟩⟩, ⟨.Newline, ⟨2, 1, 1⟩⟩, ⟨.Log, ⟨2, 3, 3⟩⟩,
   ⟨.Identifier "y", ⟨2, 4, 4⟩⟩, ⟨.Newline, ⟨3, 1, 5⟩⟩, ⟨.Log, ⟨3, 3, 7⟩⟩,
   ⟨.Number ⟨2, 1⟩, ⟨3, 4, 8⟩⟩, ⟨.Newline, ⟨4, 1, 9⟩⟩, ⟨.RightBrace, ⟨4, 1, 9⟩⟩,
   ⟨.Newline, ⟨5, 1, 10⟩⟩, ⟨.Eof, ⟨5, 1, 10⟩⟩]

def c2Stmts : List Stmt :=
  [.Block [.Log (.Variable ⟨.Identifier "y", ⟨2, 4, 4⟩⟩),
           .Log (.Literal ⟨.Number ⟨2, 1⟩, ⟨3, 4, 8⟩⟩)]]

/-- The same two statements of `c2Src` at top level (no block). -/
def c2TopSrc : String := "log y\nlog 2\n"

def c2TopToks : List LocToken :=
  [⟨.Log, ⟨1, 3, 2⟩⟩, ⟨.Identifier "y", ⟨1, 4, 3⟩⟩, ⟨.Newline, ⟨2, 1, 4⟩⟩,
   ⟨.Log, ⟨2, 3, 6⟩⟩, ⟨.Number ⟨2, 1⟩, ⟨2, 4, 7⟩⟩, ⟨.Newline, ⟨3, 1, 8⟩⟩,
   ⟨.Eof, ⟨3, 1, 8⟩⟩]

def c2TopStmts : List Stmt :=
  [.Log (.Variable ⟨.Identifier "y", ⟨1, 4, 3⟩⟩),
   .Log (.Literal ⟨.Number ⟨2, 1⟩, ⟨2, 4, 7⟩⟩)]

/-- Claim C3's program, verbatim from the spec (with an `in`). -/
def c3aSrc : String := "for i in 0..3 \x7b\nlog i\n\x7d\n"

def c3aToks : List LocToken :=
  [⟨.For, ⟨1, 3, 2⟩⟩, ⟨.Identifier "i", ⟨1, 4, 3⟩⟩, ⟨.Identifier "in", ⟨1, 6, 5⟩⟩,
   ⟨.Number ⟨0, 1⟩, ⟨1, 7, 6⟩⟩, ⟨.Range, ⟨1, 8, 7⟩⟩, ⟨.Number ⟨3, 1⟩, ⟨1, 8, 7⟩⟩,
   ⟨.LeftBrace, ⟨1, 9, 8⟩⟩, ⟨.Newline, ⟨2, 1, 9⟩⟩, ⟨.Log, ⟨2, 3, 11⟩⟩,
   ⟨.Identifier "i", ⟨2, 4, 12⟩⟩, ⟨.Newline, ⟨3, 1, 13⟩⟩, ⟨.RightBrace, ⟨3, 1, 13⟩⟩,
   ⟨.Newline, ⟨4, 1, 14⟩⟩, ⟨.Eof, ⟨4, 1, 14⟩⟩]

/-- What `c3aSrc` parses to: there is no `in` keyword, so `in` becomes the
for loop's ITERABLE (a variable read) and `0..3` becomes the loop BODY; the
braced block is a separate trailing statement. -/
def c3aStmts : List Stmt :=
  [.For (some ⟨.Identifier "i", ⟨1, 4, 3⟩⟩) (.Variable ⟨.Identifier "in", ⟨1, 6, 5⟩⟩)
     (.Expression (.Binary (.Literal ⟨.Number ⟨0, 1⟩, ⟨1, 7, 6⟩⟩) ⟨.Range, ⟨1, 8, 7⟩⟩
        (.Literal ⟨.Number ⟨3, 1⟩, ⟨1, 8, 7⟩⟩))),
   .Block [.Log (.Variable ⟨.Identifier "i", ⟨2, 4, 12⟩⟩)]]

/-- Claim C3's program in the syntax the parser actually accepts (no `in`). -/
def c3bSrc : String := "for i 0..3 \x7b\nlog i\n\x7d\n"

def c3bToks : List LocToken :=
  [⟨.For, ⟨1, 3, 2⟩⟩, ⟨.Identifier "i", ⟨1, 4, 3⟩⟩, ⟨.Number ⟨0, 1⟩, ⟨1, 5, 4⟩⟩,
   ⟨.Range, ⟨1, 6, 5⟩⟩, ⟨.Number ⟨3, 1⟩, ⟨1, 6, 5⟩⟩, ⟨.LeftBrace, ⟨1, 7, 6⟩⟩,
   ⟨.Newline, ⟨2, 1, 7⟩⟩, ⟨.Log, ⟨2, 3, 9⟩⟩, ⟨.Identifier "i", ⟨2, 4, 10⟩⟩,
   ⟨.Newline, ⟨3, 1, 11⟩⟩, ⟨.RightBrace, ⟨3, 1, 11⟩⟩, ⟨.Newline, ⟨4, 1, 12⟩⟩,
   ⟨.Eof, ⟨4, 1, 12⟩⟩]

def c3bStmts : List Stmt :=
  [.For (some ⟨.Identifier "i", ⟨1, 4, 3⟩⟩)
     (.Binary (.Literal ⟨.Number ⟨0, 1⟩, ⟨1, 5, 4⟩⟩) ⟨.Range, ⟨1, 6, 5⟩⟩
        (.Literal ⟨.Number ⟨3, 1⟩, ⟨1, 6, 5⟩⟩))
     (.Block [.Log (.Variable ⟨.Identifier "i", ⟨2, 4, 10⟩⟩)])]

/-- Claim C8's program, verbatim: note `log x }` — no statement terminator
before the closing brace. -/
def c8aSrc : String := "var x = 5\n\x7b var x = 10\nlog x \x7d\nlog x"

def c8aToks : List LocToken :=
  [⟨.Var, ⟨1, 3, 2⟩⟩, ⟨.Identifier "x", ⟨1, 4, 3⟩⟩, ⟨.Equal, ⟨1, 5, 4⟩⟩,
   ⟨.Number ⟨5, 1⟩, ⟨1, 6, 5⟩⟩, ⟨.Newline, ⟨2, 1, 6⟩⟩, ⟨.LeftBrace, ⟨2, 1, 6⟩⟩,
   ⟨.Var, ⟨2, 4, 9⟩⟩, ⟨.Identifier "x", ⟨2, 5, 10⟩⟩, ⟨.Equal, ⟨2, 6, 11⟩⟩,
   ⟨.Number ⟨10, 1⟩, ⟨2, 8, 13⟩⟩, ⟨.Newline, ⟨3, 1, 14⟩⟩, ⟨.Log, ⟨3, 3, 16⟩⟩,
   ⟨.Identifier "x", ⟨3, 4, 17⟩⟩, ⟨.RightBrace, ⟨3, 5, 18⟩⟩, ⟨.Newline, ⟨4, 1, 19⟩⟩,
   ⟨.Log, ⟨4, 3, 21⟩⟩, ⟨.Identifier "x", ⟨4, 4, 22⟩⟩, ⟨.Eof, ⟨4, 4, 22⟩⟩]

/-- Claim C8's program with the statement terminators the parser requires
(a newline before `}` and a trailing newline). -/
def c8bSrc : String := "var x = 5\n\x7b var x = 10\nlog x\n\x7d\nlog x\n"

def c8bToks : List LocToken :=
  [⟨.Var, ⟨1, 3, 2⟩⟩, ⟨.Identifier "x", ⟨1, 4, 3⟩⟩, ⟨.Equal, ⟨1, 5, 4⟩⟩,
   ⟨.Number ⟨5, 1⟩, ⟨1, 6, 5⟩⟩, ⟨.Newline, ⟨2, 1, 6⟩⟩, ⟨.LeftBrace, ⟨2, 1, 6⟩⟩,
   ⟨.Var, ⟨2, 4, 9⟩⟩, ⟨.Identifier "x", ⟨2, 5, 10⟩⟩, ⟨.Equal, ⟨2, 6, 11⟩⟩,
   ⟨.Number ⟨10, 1⟩, ⟨2, 8, 13⟩⟩, ⟨.Newline, ⟨3, 1, 14⟩⟩, ⟨.Log, ⟨3, 3, 16⟩⟩,
   ⟨.Identifier "x", ⟨3, 4, 17⟩⟩, ⟨.Newline, ⟨4, 1, 18⟩⟩, ⟨.RightBrace, ⟨4, 1, 18⟩⟩,
   ⟨.Newline, ⟨5, 1, 19⟩⟩, ⟨.Log, ⟨5, 3, 21⟩⟩, ⟨.Identifier "x", ⟨5, 4, 22⟩⟩,
   ⟨.Newline, ⟨6, 1, 23⟩⟩, ⟨.Eof, ⟨6, 1, 23⟩⟩]

def c8bStmts : List Stmt :=
  [.Declaration ⟨.Identifier "x", ⟨1, 4, 3⟩⟩ (some (.Literal ⟨.Number ⟨5, 1⟩, ⟨1, 6, 5⟩⟩)),
   .Block [.Declaration ⟨.Identifier "x", ⟨2, 5, 10⟩⟩ (some (.Literal ⟨.Number ⟨10, 1⟩, ⟨2, 8, 13⟩⟩)),
           .Log (.Variable ⟨.Identifier "x", ⟨3, 4, 17⟩⟩)],
   .Log (.Variable ⟨.Identifier "x", ⟨5, 4, 22⟩⟩)]

/-! ### Helper lemmas -/

theorem defineVar_length (env : Env) (k : String) (v : Value) :
    (defineVar env k v).length = env.length := by
  cases env <;> simp [defineVar]

theorem assignVar_length :
    ∀ (env : Env) (k : String) (v : Value) (env' : Env),
      assignVar env k v = some env' → env'.length = env.length := by
  intro env
  induction env with
  | nil => intro k v env' h; exact Option.noConfusion h
  | cons f rest ih =>
      intro k v env' h
      simp only [assignVar] at h
      by_cases hf : (lookupVar f k).isSome
      · rw [if_pos hf] at h
        cases h
        simp
      · rw [if_neg hf] at h
        cases hr : assignVar rest k v with
        | none => rw [hr] at h; exact Option.noConfusion h
        | some r' =>
            rw [hr] at h
            cases h
            simp [ih k v r' hr]

theorem restoreEnv_length (saved cur : Env) (h : saved.length ≤ cur.length) :
    (restoreEnv saved cur).length = saved.length := by
  simp only [restoreEnv, List.length_drop]
  omega

theorem andThenV_env_length (r : Outcome × InterpState)
    (f : Value → InterpState → Outcome × InterpState) (n : Nat)
    (hr : r.2.env.length = n)
    (hf : ∀ v st, st.env.length = n → ((f v st).2).env.length = n) :
    ((andThenV r f).2).env.length = n := by
  obtain ⟨o, st⟩ := r
  cases o with
  | ok v => exact hf v st hr
  | err e => exact hr
  | panicked => exact hr
  | timeout => exact hr

theorem andThenV_env_le (r : Outcome × InterpState)
    (f : Value → InterpState → Outcome × InterpState) (n : Nat)
    (hr : n ≤ r.2.env.length)
    (hf : ∀ v st, n ≤ st.env.length → n ≤ ((f v st).2).env.length) :
    n ≤ ((andThenV r f).2).env.length := by
  obtain ⟨o, st⟩ := r
  cases o with
  | ok v => exact hf v st hr
  | err e => exact hr
  | panicked => exact hr
  | timeout => exact hr

/-- Expression evaluation never changes the depth of the scope chain: it
only reads variables and assigns into existing scopes. -/
theorem eval_env_length : ∀ (e : Expr) (st : InterpState),
    ((evaluate e st).2).env.length = st.env.length
  | .Assign t ve, st => by
      simp only [evaluate]
      apply andThenV_env_length _ _ _ (eval_env_length ve st)
      intro v st1 h1
      cases h : assignVar st1.env (tokStr t.token) v with
      | none => simpa [h] using h1
      | some env' =>
          simp only [h]
          simpa [assignVar_length _ _ _ _ h] using h1
  | .Unary op re, st => by
      simp only [evaluate]
      exact andThenV_env_length _ _ _ (eval_env_length re st) (fun v st1 h1 => h1)
  | .Binary le op re, st => by
      simp only [evaluate]
      exact andThenV_env_length _ _ _ (eval_env_length le st)
        (fun l st1 h1 =>
          andThenV_env_length _ _ _ ((eval_env_length re st1).trans h1)
            (fun r st2 h2 => h2))
  | .Call callee args, st => rfl
  | .Get obj name, st => rfl
  | .Set obj name ve, st => rfl
  | .Grouping e, st => eval_env_length e st
  | .Literal t, st => by simp only [evaluate]; split <;> rfl
  | .Logical le op re, st => by
      simp only [evaluate]
      apply andThenV_env_length _ _ _ (eval_env_length le st)
      intro lv st1 h1
      split
      · exact h1
      · split
        · exact h1
        · exact andThenV_env_length _ _ _ ((eval_env_length re st1).trans h1)
            (fun rv st2 h2 => h2)
  | .Super kw, st => rfl
  | .This kw, st => rfl
  | .Variable t, st => by
      simp only [evaluate]
      rcases hv : getVar st.env (tokStr t.token) with _ | v
      · rfl
      · cases v <;> rfl

theorem forVarErr_snd (o : Option LocToken) (st : InterpState) :
    (forVarErr o st).2 = st := by
  cases o <;> rfl

theorem seqArm_mono (exec : Task → InterpState → Outcome × InterpState)
    (hexec : ∀ t s, s.env.length ≤ ((exec t s).2).env.length) :
    ∀ (l : List Stmt) (acc : Outcome) (st : InterpState),
      st.env.length ≤ ((seqArm exec l acc st).2).env.length := by
  intro l acc st
  cases l with
  | nil => exact le_refl _
  | cons s rest =>
      simp only [seqArm]
      rcases hr : exec (.stmt s) st with ⟨o, st'⟩
      have h1 := hexec (.stmt s) st
      rw [hr] at h1
      cases o with
      | ok v => exact le_trans h1 (hexec (.seq rest (.ok v)) st')
      | err e => exact le_trans h1 (hexec (.seq rest (.err e)) st')
      | panicked => exact h1
      | timeout => exact h1

theorem blockArm_mono (exec : Task → InterpState → Outcome × InterpState)
    (hexec : ∀ t s, s.env.length ≤ ((exec t s).2).env.length) :
    ∀ (stmts : List Stmt) (st : InterpState),
      st.env.length ≤ ((blockArm exec stmts st).2).env.length := by
  intro stmts st
  simp only [blockArm]
  rcases hr : exec (.seq stmts (.ok .Null)) { st with env := [] :: st.env } with ⟨o, st2⟩
  have h1 := hexec (.seq stmts (.ok .Null)) { st with env := [] :: st.env }
  rw [hr] at h1
  simp only [List.length_cons] at h1
  cases o <;> simp [restoreEnv, List.length_drop] <;> omega

/-- A `Block` restores the entry depth of the scope chain whether the body
completed normally or erred; only a panic (or the fuel artifact) unwinds
without restoring. -/
theorem blockArm_restore (exec : Task → InterpState → Outcome × InterpState)
    (hexec : ∀ t s, s.env.length ≤ ((exec t s).2).env.length) :
    ∀ (stmts : List Stmt) (st : InterpState),
      (blockArm exec stmts st).1 ≠ .timeout →
      (blockArm exec stmts st).1 ≠ .panicked →
      ((blockArm exec stmts st).2).env.length = st.env.length := by
  intro stmts st
  simp only [blockArm]
  rcases hr : exec (.seq stmts (.ok .Null)) { st with env := [] :: st.env } with ⟨o, st2⟩
  have h1 := hexec (.seq stmts (.ok .Null)) { st with env := [] :: st.env }
  rw [hr] at h1
  simp only [List.length_cons] at h1
  cases o with
  | ok v => intro _ _; simp [restoreEnv, List.length_drop]; omega
  | err e => intro _ _; simp [restoreEnv, List.length_drop]; omega
  | panicked => intro _ h; exact absurd rfl h
  | timeout => intro h _; exact absurd rfl h

theorem ifArm_mono (exec : Task → InterpState → Outcome × InterpState)
    (hexec : ∀ t s, s.env.length ≤ ((exec t s).2).env.length) :
    ∀ (cond : Expr) (thenB : Stmt) (elseB : Option Stmt) (st : InterpState),
      st.env.length ≤ ((ifArm exec cond thenB elseB st).2).env.length := by
  intro cond thenB elseB st
  have hev := eval_env_length cond st
  rcases h : evaluate cond st with ⟨o, st1⟩
  rw [h] at hev
  have hev : st1.env.length = st.env.length := hev
  simp only [ifArm, h]
  cases o with
  | ok v =>
      cases v with
      | Boolean b =>
          cases b with
          | true => exact le_trans (le_of_eq hev.symm) (hexec (.stmt thenB) st1)
          | false =>
              cases elseB with
              | some e => exact le_trans (le_of_eq hev.symm) (hexec (.stmt e) st1)
              | none => exact le_of_eq hev.symm
      | Number a =>
          cases hg : get_loc_token_from_expr cond <;> simp only [hg] <;>
            exact le_of_eq hev.symm
      | Range a b =>
          cases hg : get_loc_token_from_expr cond <;> simp only [hg] <;>
            exact le_of_eq hev.symm
      | String s =>
          cases hg : get_loc_token_from_expr cond <;> simp only [hg] <;>
            exact le_of_eq hev.symm
      | Null =>
          cases hg : get_loc_token_from_expr cond <;> simp only [hg] <;>
            exact le_of_eq hev.symm
  | err e => exact le_of_eq hev.symm
  | panicked => exact le_of_eq hev.symm
  | timeout => exact le_of_eq hev.symm

theorem forArmTail_mono (exec : Task → InterpState → Outcome × InterpState)
    (hexec : ∀ t s, s.env.length ≤ ((exec t s).2).env.length) :
    ∀ (iterable : Expr) (body : Stmt) (saved : Env) (actual : LocToken)
      (l r : F64) (st2 : InterpState),
      saved.length + 1 = st2.env.length →
      saved.length ≤ ((forArmTail exec iterable body saved actual l r st2).2).env.length := by
  intro iterable body saved actual l r st2 hs
  simp only [forArmTail]
  have hd : (defineVar st2.env (tokStr actual.token) (.Number l)).length = st2.env.length :=
    defineVar_length _ _ _
  cases hget : getVar (defineVar st2.env (tokStr actual.token) (.Number l)) (tokStr actual.token) with
  | none => dsimp only; simp; omega
  | some v =>
      cases v with
      | Number i =>
          dsimp only
          have h3 : saved.length ≤
              ({ st2 with env := defineVar st2.env (tokStr actual.token) (.Number l) } : InterpState).env.length := by
            simp [hd]; omega
          apply andThenV_env_le _ _ _
            (le_trans h3 (hexec (.forIter actual r body (get_loc_token_from_expr iterable)) _))
          intro v4 st4 h4
          apply andThenV_env_le _ _ _ (le_trans h4 (hexec (.stmt body) st4))
          intro v5 st5 h5
          simp only [restoreEnv, List.length_drop]
          omega
      | Range a b =>
          dsimp only [forVarErr]
          cases get_loc_token_from_expr iterable <;> simp <;> omega
      | String s =>
          dsimp only [forVarErr]
          cases get_loc_token_from_expr iterable <;> simp <;> omega
      | Boolean b =>
          dsimp only [forVarErr]
          cases get_loc_token_from_expr iterable <;> simp <;> omega
      | Null =>
          dsimp only [forVarErr]
          cases get_loc_token_from_expr iterable <;> simp <;> omega

theorem forArm_mono (exec : Task → InterpState → Outcome × InterpState)
    (hexec : ∀ t s, s.env.length ≤ ((exec t s).2).env.length) :
    ∀ (name : Option LocToken) (iterable : Expr) (body : Stmt) (st : InterpState),
      st.env.length ≤ ((forArm exec name iterable body st).2).env.length := by
  intro name iterable body st
  have hev := eval_env_length iterable st
  rcases h : evaluate iterable st with ⟨o, st1⟩
  rw [h] at hev
  have hev : st1.env.length = st.env.length := hev
  simp only [forArm, h]
  cases o with
  | ok v =>
      cases v with
      | Range l r =>
          have htail := forArmTail_mono exec hexec iterable body st1.env
          cases name with
          | some n =>
              exact le_trans (le_of_eq hev.symm)
                (htail n l r { st1 with env := [] :: st1.env } (by simp))
          | none =>
              cases hg : get_loc_token_from_expr iterable with
              | none => simp only [hg, Option.map_none']; simp; omega
              | some lt =>
                  simp only [hg, Option.map_some']
                  exact le_trans (le_of_eq hev.symm)
                    (htail ⟨.Identifier "i", lt.loc⟩ l r { st1 with env := [] :: st1.env } (by simp))
      | Number a =>
          cases hg : get_loc_token_from_expr iterable <;> simp only [hg] <;>
            exact le_of_eq hev.symm
      | String s =>
          cases hg : get_loc_token_from_expr iterable <;> simp only [hg] <;>
            exact le_of_eq hev.symm
      | Boolean b =>
          cases hg : get_loc_token_from_expr iterable <;> simp only [hg] <;>
            exact le_of_eq hev.symm
      | Null =>
          cases hg : get_loc_token_from_expr iterable <;> simp only [hg] <;>
            exact le_of_eq hev.symm
  | err e => exact le_of_eq hev.symm
  | panicked => exact le_of_eq hev.symm
  | timeout => exact le_of_eq hev.symm

theorem whileIterArm_mono (exec : Task → InterpState → Outcome × InterpState)
    (hexec : ∀ t s, s.env.length ≤ ((exec t s).2).env.length) :
    ∀ (cond : Expr) (body : Stmt) (st : InterpState),
      st.env.length ≤ ((whileIterArm exec cond body st).2).env.length := by
  intro cond body st
  have hev := eval_env_length cond st
  rcases h : evaluate cond st with ⟨o, st1⟩
  rw [h] at hev
  have hev : st1.env.length = st.env.length := hev
  simp only [whileIterArm, h]
  cases o with
  | ok v =>
      by_cases ht : v.is_truthy
      · simp only [ht, if_true]
        apply andThenV_env_le _ _ _ (le_trans (le_of_eq hev.symm) (hexec (.stmt body) st1))
        intro v2 st2 h2
        exact le_trans h2 (hexec (.whileIter cond body) st2)
      · simp only [ht, if_false]
        exact le_of_eq hev.symm
  | err e => exact le_of_eq hev.symm
  | panicked => exact le_of_eq hev.symm
  | timeout => exact le_of_eq hev.symm

theorem forIterArm_mono (exec : Task → InterpState → Outcome × InterpState)
    (hexec : ∀ t s, s.env.length ≤ ((exec t s).2).env.length) :
    ∀ (actual : LocToken) (rend : F64) (body : Stmt) (iterLoc : Option LocToken)
      (st : InterpState),
      st.env.length ≤ ((forIterArm exec actual rend body iterLoc st).2).env.length := by
  intro actual rend body iterLoc st
  simp only [forIterArm]
  cases hg : getVar st.env (tokStr actual.token) with
  | none => exact le_refl _
  | some v =>
      cases v with
      | Number i0 =>
          dsimp only
          apply andThenV_env_le _ _ _ (hexec (.stmt body) st)
          intro v1 st1 h1
          cases hg1 : getVar st1.env (tokStr actual.token) with
          | none => dsimp only; exact h1
          | some w =>
              cases w with
              | Number i =>
                  dsimp only
                  cases ha : assignVar st1.env (tokStr actual.token) (.Number (F64.add i f64One)) with
                  | none => dsimp only; exact h1
                  | some env' =>
                      have hlen := assignVar_length _ _ _ _ ha
                      dsimp only
                      cases hg2 : getVar env' (tokStr actual.token) with
                      | none => dsimp only; simpa using le_trans h1 (le_of_eq hlen.symm)
                      | some w2 =>
                          cases w2 with
                          | Number newI =>
                              dsimp only
                              by_cases hge : F64.bge newI rend
                              · simp only [hge, if_true]
                                simpa using le_trans h1 (le_of_eq hlen.symm)
                              · simp only [hge, if_false]
                                refine le_trans h1 (le_trans (le_of_eq hlen.symm) ?_)
                                simpa using hexec (.forIter actual rend body iterLoc) { st1 with env := env' }
                          | Range a b =>
                              dsimp only
                              rw [forVarErr_snd]
                              simpa using le_trans h1 (le_of_eq hlen.symm)
                          | String s =>
                              dsimp only
                              rw [forVarErr_snd]
                              simpa using le_trans h1 (le_of_eq hlen.symm)
                          | Boolean b =>
                              dsimp only
                              rw [forVarErr_snd]
                              simpa using le_trans h1 (le_of_eq hlen.symm)
                          | Null =>
                              dsimp only
                              rw [forVarErr_snd]
                              simpa using le_trans h1 (le_of_eq hlen.symm)
              | Range a b => dsimp only; rw [forVarErr_snd]; exact h1
              | String s => dsimp only; rw [forVarErr_snd]; exact h1
              | Boolean b => dsimp only; rw [forVarErr_snd]; exact h1
              | Null => dsimp only; rw [forVarErr_snd]; exact h1
      | Range a b => exact le_refl _
      | String s => exact le_refl _
      | Boolean b => exact le_refl _
      | Null => exact le_refl _

/-- Statement execution never shrinks the scope chain below its entry
depth (erroring `For` bodies can leave it deeper, but nothing pops below
the frames that were current on entry). -/
theorem execT_env_mono : ∀ (fuel : Nat) (task : Task) (st : InterpState),
    st.env.length ≤ ((execT fuel task st).2).env.length := by
  intro fuel
  induction fuel with
  | zero => intro task st; exact le_refl _
  | succ fuel ih =>
      intro task st
      cases task with
      | stmt s =>
          cases s with
          | Expression e => exact le_of_eq (eval_env_length e st).symm
          | Log e =>
              have hev := eval_env_length e st
              rcases h : evaluate e st with ⟨o, st1⟩
              rw [h] at hev
              show st.env.length ≤ ((match evaluate e st with
                | (.ok v, st1) => ((.ok v : Outcome), { st1 with output := st1.output ++ [displayValue v] })
                | other => other).2).env.length
              rw [h]
              cases o <;> exact le_of_eq hev.symm
          | Declaration name init =>
              cases init with
              | none => exact le_of_eq (defineVar_length st.env _ _).symm
              | some i =>
                  refine le_of_eq (Eq.symm ?_)
                  exact andThenV_env_length _ _ _ (eval_env_length i st)
                    (fun v st1 h1 => by simpa [defineVar_length] using h1)
          | Block stmts => exact blockArm_mono _ ih stmts st
          | If cond thenB elseB => exact ifArm_mono _ ih cond thenB elseB st
          | While cond body => exact ih (.whileIter cond body) st
          | For name iterable body => exact forArm_mono _ ih name iterable body st
          | Return e => exact le_refl _
      | seq l acc => exact seqArm_mono _ ih l acc st
      | whileIter cond body => exact whileIterArm_mono _ ih cond body st
      | forIter actual rend body iterLoc => exact forIterArm_mono _ ih actual rend body iterLoc st

theorem andThenV_ok (r : Outcome × InterpState)
    (f : Value → InterpState → Outcome × InterpState) (v : Value) (st' : InterpState)
    (h : andThenV r f = (.ok v, st')) :
    ∃ w stm, r = (.ok w, stm) ∧ f w stm = (.ok v, st') := by
  obtain ⟨o, st⟩ := r
  cases o with
  | ok w => exact ⟨w, st, rfl, h⟩
  | err e => exact absurd (congrArg Prod.fst h) (by simp [andThenV])
  | panicked => exact absurd (congrArg Prod.fst h) (by simp [andThenV])
  | timeout => exact absurd (congrArg Prod.fst h) (by simp [andThenV])

theorem forArmTail_ok (exec : Task → InterpState → Outcome × InterpState)
    (hexec : ∀ t s, s.env.length ≤ ((exec t s).2).env.length) :
    ∀ (iterable : Expr) (body : Stmt) (saved : Env) (actual : LocToken)
      (l r : F64) (st2 : InterpState) (v : Value) (st' : InterpState),
      saved.length + 1 = st2.env.length →
      forArmTail exec iterable body saved actual l r st2 = (.ok v, st') →
      st'.env.length = saved.length := by
  intro iterable body saved actual l r st2 v st' hs heq
  simp only [forArmTail] at heq
  have hd : (defineVar st2.env (tokStr actual.token) (.Number l)).length = st2.env.length :=
    defineVar_length _ _ _
  cases hget : getVar (defineVar st2.env (tokStr actual.token) (.Number l)) (tokStr actual.token) with
  | none => rw [hget] at heq; exact absurd (congrArg Prod.fst heq) (by simp)
  | some w =>
      cases w with
      | Number i =>
          rw [hget] at heq
          dsimp only at heq
          obtain ⟨w4, st4, h4, heq2⟩ := andThenV_ok _ _ _ _ heq
          obtain ⟨w5, st5, h5, heq3⟩ := andThenV_ok _ _ _ _ heq2
          have hm4 := hexec (.forIter actual r body (get_loc_token_from_expr iterable))
            { st2 with env := defineVar st2.env (tokStr actual.token) (.Number l) }
          rw [h4] at hm4
          have hm4 : (defineVar st2.env (tokStr actual.token) (.Number l)).length ≤ st4.env.length := hm4
          have hm5 := hexec (.stmt body) st4
          rw [h5] at hm5
          have hm5 : st4.env.length ≤ st5.env.length := hm5
          have hst' : st' = { st5 with env := restoreEnv saved st5.env } :=
            (congrArg Prod.snd heq3).symm
          rw [hst']
          apply restoreEnv_length
          simp only [hd] at hm4
          omega
      | Range a b =>
          rw [hget] at heq; dsimp only at heq
          cases hio : get_loc_token_from_expr iterable <;> rw [hio] at heq <;>
            simp [forVarErr] at heq
      | String s =>
          rw [hget] at heq; dsimp only at heq
          cases hio : get_loc_token_from_expr iterable <;> rw [hio] at heq <;>
            simp [forVarErr] at heq
      | Boolean b =>
          rw [hget] at heq; dsimp only at heq
          cases hio : get_loc_token_from_expr iterable <;> rw [hio] at heq <;>
            simp [forVarErr] at heq
      | Null =>
          rw [hget] at heq; dsimp only at heq
          cases hio : get_loc_token_from_expr iterable <;> rw [hio] at heq <;>
            simp [forVarErr] at heq

/-- A `For` statement that completes NORMALLY does restore the entry depth
of the scope chain (the restore on interpreter.rs:327 runs only on the
success path). -/
theorem forArm_ok (exec : Task → InterpState → Outcome × InterpState)
    (hexec : ∀ t s, s.env.length ≤ ((exec t s).2).env.length) :
    ∀ (name : Option LocToken) (iterable : Expr) (body : Stmt) (st : InterpState)
      (v : Value) (st' : InterpState),
      forArm exec name iterable body st = (.ok v, st') →
      st'.env.length = st.env.length := by
  intro name iterable body st v st' heq
  have hev := eval_env_length iterable st
  rcases h : evaluate iterable st with ⟨o, st1⟩
  rw [h] at hev
  have hev : st1.env.length = st.env.length := hev
  simp only [forArm, h] at heq
  cases o with
  | ok w =>
      cases w with
      | Range l r =>
          dsimp only at heq
          rw [← hev]
          cases name with
          | some n =>
              exact forArmTail_ok exec hexec iterable body st1.env n l r
                { st1 with env := [] :: st1.env } v st' (by simp) heq
          | none =>
              cases hg : get_loc_token_from_expr iterable with
              | none =>
                  rw [hg] at heq
                  exact absurd (congrArg Prod.fst heq) (by simp)
              | some lt =>
                  rw [hg] at heq
                  exact forArmTail_ok exec hexec iterable body st1.env ⟨.Identifier "i", lt.loc⟩ l r
                    { st1 with env := [] :: st1.env } v st' (by simp) heq
      | Number a =>
          cases hg : get_loc_token_from_expr iterable <;> rw [hg] at heq <;>
            exact absurd (congrArg Prod.fst heq) (by simp)
      | String s =>
          cases hg : get_loc_token_from_expr iterable <;> rw [hg] at heq <;>
            exact absurd (congrArg Prod.fst heq) (by simp)
      | Boolean b =>
          cases hg : get_loc_token_from_expr iterable <;> rw [hg] at heq <;>
            exact absurd (congrArg Prod.fst heq) (by simp)
      | Null =>
          cases hg : get_loc_token_from_expr iterable <;> rw [hg] at heq <;>
            exact absurd (congrArg Prod.fst heq) (by simp)
  | err e => exact absurd (congrArg Prod.fst heq) (by simp)
  | panicked => exact absurd (congrArg Prod.fst heq) (by simp)
  | timeout => exact absurd (congrArg Prod.fst heq) (by simp)

theorem eqComparison_of_not_sameVariant (vl vr : Value)
    (h : sameVariant vl vr = false) : eqComparison vl vr = false := by
  cases vl <;> cases vr <;> simp_all [sameVariant, eqComparison]

theorem usizeSat_neg (i : Int) (h : i < 0) : usizeSat i = 0 := by
  simp [usizeSat, h]

theorem strRepeat_zero (s : String) : strRepeat s 0 = "" := rfl

theorem lineCommentLoop_newline :
    ∀ (cs : List Char) (rest : List Char) (loc : Loc), '\n' ∉ cs →
      lineCommentLoop (cs ++ '\n' :: rest) loc
        = (rest, ⟨loc.line + 1, 1, loc.idx + cs.length + 1⟩) := by
  intro cs
  induction cs with
  | nil => intro rest loc _; simp [lineCommentLoop, advLoc]
  | cons c cs ih =>
      intro rest loc h
      have hc : ¬(c = '\n') := fun e => h (by simp [e])
      simp only [List.cons_append, lineCommentLoop]
      rw [if_neg hc]
      rw [show (cs.append ('\n' :: rest)) = cs ++ '\n' :: rest from rfl,
          ih rest (advLoc loc c) (fun hm => h (List.mem_cons_of_mem _ hm))]
      simp only [advLoc, if_neg hc, List.length_cons, Prod.mk.injEq, Loc.mk.injEq]
      exact ⟨trivial, trivial, trivial, by omega⟩

/-! ### Claims -/

/-- Claim C1, counterexample.  The claim says evaluating `==` on operands of
different Value variants returns a cross-type comparison error and never
yields `Boolean(false)`; but the evaluator (interpreter.rs 140-150) maps
every cross-variant pair to `false` and wraps it in `Ok`: evaluating
`true == 1` yields `Ok(Boolean(false))`, not an error. -/
theorem C1_counterexample :
    evaluate (.Binary (.Literal ⟨.True, ⟨1, 5, 4⟩⟩) ⟨.EqualEqual, ⟨1, 8, 7⟩⟩
        (.Literal ⟨.Number ⟨1, 1⟩, ⟨1, 11, 10⟩⟩)) ⟨[[]], []⟩
      = (.ok (.Boolean false), ⟨[[]], []⟩) := by decide

/-- Claim C1, amended.  For every evaluation of `==` or `!=` whose two
operands evaluate to Values of different variants, the evaluator returns
`Ok(Boolean(false))` for `==` and `Ok(Boolean(true))` for `!=` — a silent
coercion to inequality, never an error. -/
theorem C1_theorem (l r : Expr) (op : LocToken) (st st1 st2 : InterpState)
    (vl vr : Value)
    (hl : evaluate l st = (.ok vl, st1))
    (hr : evaluate r st1 = (.ok vr, st2))
    (hv : sameVariant vl vr = false) :
    (op.token = Token.EqualEqual →
      evaluate (.Binary l op r) st = (.ok (.Boolean false), st2)) ∧
    (op.token = Token.BangEqual →
      evaluate (.Binary l op r) st = (.ok (.Boolean true), st2)) := by
  have hcmp := eqComparison_of_not_sameVariant vl vr hv
  have hk1 : Token.kindEq Token.EqualEqual Token.EqualEqual = true := rfl
  have hk2 : Token.kindEq Token.BangEqual Token.EqualEqual = false := rfl
  constructor <;> intro hop <;>
    simp [evaluate, hl, hr, andThenV, binaryOp, hop, hk1, hk2, hcmp]

/-- Claim C1, witness for the amended theorem: `"a" != 3` evaluates to
`Ok(Boolean(true))`. -/
theorem C1_witness :
    evaluate (.Binary (.Literal ⟨.String "a", ⟨1, 1, 0⟩⟩) ⟨.BangEqual, ⟨1, 3, 2⟩⟩
        (.Literal ⟨.Number ⟨3, 1⟩, ⟨1, 6, 5⟩⟩)) ⟨[[]], []⟩
      = (.ok (.Boolean true), ⟨[[]], []⟩) :=
  (C1_theorem (.Literal ⟨.String "a", ⟨1, 1, 0⟩⟩) (.Literal ⟨.Number ⟨3, 1⟩, ⟨1, 6, 5⟩⟩)
    ⟨.BangEqual, ⟨1, 3, 2⟩⟩ ⟨[[]], []⟩ ⟨[[]], []⟩ ⟨[[]], []⟩ (.String "a") (.Number ⟨3, 1⟩)
    (by decide) (by decide) (by decide)).2 rfl

/-- Claim C2, code bug.  The claim (with the spec) says the first error
anywhere aborts the run, including inside blocks.  At top level it does
(second conjunct: `log y` stops the run before `log 2`, nothing is
printed).  But the `Block` arm (interpreter.rs 257-260) executes every
statement and keeps only the last result, so `{ log y; log 2 }` prints
"2" and the whole run returns Ok — the error is silently discarded. -/
theorem C2_code_bug :
    runProg 25 c2Src = (.ok, ["2"]) ∧
    runProg 25 c2TopSrc = (.err ⟨⟨1, 4, 3⟩, "Undefined variable 'y'."⟩, []) := by
  constructor
  · have h1 : scan c2Src = SOut.ok c2Toks := by decide
    have h2 : parseTokens 25 c2Toks = PRes.ok c2Stmts ⟨c2Toks, 10⟩ := rfl
    have h3 : interpret 25 c2Stmts ⟨[[]], []⟩ = (.ok .Null, ⟨[[]], ["2"]⟩) := by decide
    simp [runProg, h1, h2, h3]
  · have h1 : scan c2TopSrc = SOut.ok c2TopToks := by decide
    have h2 : parseTokens 25 c2TopToks = PRes.ok c2TopStmts ⟨c2TopToks, 6⟩ := rfl
    have h3 : interpret 25 c2TopStmts ⟨[[]], []⟩
        = (.err ⟨⟨1, 4, 3⟩, "Undefined variable 'y'."⟩, ⟨[[]], []⟩) := by decide
    simp [runProg, h1, h2, h3]

/-- Claim C3, code bug.  The claim says `for i in 0..3 { log i }` prints
0, 1, 2 and not 3.  On this code it prints NOTHING and errors: the parser
has no `in` keyword, so `in` parses as the loop's iterable (an undefined
variable read).  And in the syntax the parser does accept,
`for i 0..3 { log i }`, the loop prints 0, 1, 2 AND 3, because the
`Stmt::For` arm executes the body once more (interpreter.rs:326) after the
exit check has already fired with the variable at the range end. -/
theorem C3_code_bug :
    runProg 25 c3aSrc = (.err ⟨⟨1, 6, 5⟩, "Undefined variable 'in'."⟩, []) ∧
    runProg 25 c3bSrc = (.ok, ["0", "1", "2", "3"]) := by
  constructor
  · have h1 : scan c3aSrc = SOut.ok c3aToks := by decide
    have h2 : parseTokens 25 c3aToks = PRes.ok c3aStmts ⟨c3aToks, 13⟩ := rfl
    have h3 : interpret 25 c3aStmts ⟨[[]], []⟩
        = (.err ⟨⟨1, 6, 5⟩, "Undefined variable 'in'."⟩, ⟨[[]], []⟩) := by decide
    simp [runProg, h1, h2, h3]
  · have h1 : scan c3bSrc = SOut.ok c3bToks := by decide
    have h2 : parseTokens 25 c3bToks = PRes.ok c3bStmts ⟨c3bToks, 12⟩ := rfl
    have h3 : interpret 25 c3bStmts ⟨[[]], []⟩
        = (.ok .Null, ⟨[[]], ["0", "1", "2", "3"]⟩) := by decide
    simp [runProg, h1, h2, h3]

/-- Claim C4, code bug.  The claim says an unterminated string literal makes
`scan` return an "unterminated string" error.  But `Scanner::string`
(scanner.rs 198-212) tests the parameter `c` — the opening quote, always
`'"'` — instead of the loop variable that shadows it, so the error branch is
unreachable: scanning `"abc` (no closing quote) SUCCEEDS with a String
token holding the rest of the input, followed by Eof. -/
theorem C4_code_bug :
    scan "\"abc" = SOut.ok [⟨.String "abc", ⟨1, 4, 4⟩⟩, ⟨.Eof, ⟨1, 4, 4⟩⟩] := by
  decide

/-- Claim C5, counterexample.  The claim says every `for` statement restores
the enclosing scope as current even when its body errs.  But an error
raised by the body inside the `For` arm's loop (interpreter.rs line 312)
returns before the restore at line 327: executing `for i 0..3 log nope`
(body errs — `nope` undefined) leaves the evaluator with TWO frames — the
for loop's child scope, holding `i = 0`, on top of the entry scope —
instead of restoring the single entry frame. -/
theorem C5_counterexample :
    execT 9 (.stmt (.For (some ⟨.Identifier "i", ⟨1, 5, 4⟩⟩)
        (.Binary (.Literal ⟨.Number ⟨0, 1⟩, ⟨1, 7, 6⟩⟩) ⟨.Range, ⟨1, 8, 7⟩⟩
          (.Literal ⟨.Number ⟨3, 1⟩, ⟨1, 8, 7⟩⟩))
        (.Log (.Variable ⟨.Identifier "nope", ⟨1, 15, 14⟩⟩)))) ⟨[[]], []⟩
      = (.err ⟨⟨1, 15, 14⟩, "Undefined variable 'nope'."⟩,
         ⟨[[("i", .Number ⟨0, 1⟩)], []], []⟩) := by decide

/-- Claim C5, amended.  Block statements restore the enclosing scope's
depth on exit whether the body completed normally or returned an error
(only a panic unwinds without restoring); For statements restore it only on
NORMAL completion — an error inside a for body leaves the child scope as
the current environment (see the counterexample). -/
theorem C5_theorem :
    (∀ (fuel : Nat) (stmts : List Stmt) (st : InterpState),
        (execT fuel (.stmt (.Block stmts)) st).1 ≠ .timeout →
        (execT fuel (.stmt (.Block stmts)) st).1 ≠ .panicked →
        ((execT fuel (.stmt (.Block stmts)) st).2).env.length = st.env.length) ∧
    (∀ (fuel : Nat) (name : Option LocToken) (iterable : Expr) (body : Stmt)
        (st : InterpState) (v : Value) (st' : InterpState),
        execT fuel (.stmt (.For name iterable body)) st = (.ok v, st') →
        st'.env.length = st.env.length) := by
  constructor
  · intro fuel stmts st
    cases fuel with
    | zero => intro h _; exact absurd rfl h
    | succ fuel => exact blockArm_restore (execT fuel) (execT_env_mono fuel) stmts st
  · intro fuel name iterable body st v st' heq
    cases fuel with
    | zero => exact absurd heq (by simp [execT])
    | succ fuel => exact forArm_ok (execT fuel) (execT_env_mono fuel) name iterable body st v st' heq

/-- Claim C5, witness: a block whose body errs (`log nope`) still exits
with the chain back at depth 1, and the for loop `for i 0..1 log i`
completes with `.ok`, so its exit environment is also back at depth 1. -/
theorem C5_witness :
    ((execT 9 (.stmt (.Block [.Log (.Variable ⟨.Identifier "nope", ⟨1, 7, 6⟩⟩)]))
        ⟨[[]], []⟩).2).env.length = 1 ∧
    ((execT 9 (.stmt (.For (some ⟨.Identifier "i", ⟨1, 5, 4⟩⟩)
        (.Binary (.Literal ⟨.Number ⟨0, 1⟩, ⟨1, 7, 6⟩⟩) ⟨.Range, ⟨1, 8, 7⟩⟩
          (.Literal ⟨.Number ⟨1, 1⟩, ⟨1, 9, 8⟩⟩))
        (.Log (.Variable ⟨.Identifier "i", ⟨1, 16, 15⟩⟩)))) ⟨[[]], []⟩).2).env.length
      = 1 := by
  constructor
  · exact C5_theorem.1 9 [.Log (.Variable ⟨.Identifier "nope", ⟨1, 7, 6⟩⟩)]
      ⟨[[]], []⟩ (by decide) (by decide)
  · have h : execT 9 (.stmt (.For (some ⟨.Identifier "i", ⟨1, 5, 4⟩⟩)
        (.Binary (.Literal ⟨.Number ⟨0, 1⟩, ⟨1, 7, 6⟩⟩) ⟨.Range, ⟨1, 8, 7⟩⟩
          (.Literal ⟨.Number ⟨1, 1⟩, ⟨1, 9, 8⟩⟩))
        (.Log (.Variable ⟨.Identifier "i", ⟨1, 16, 15⟩⟩)))) ⟨[[]], []⟩
        = (.ok .Null, ⟨[[]], ["0", "1"]⟩) := by decide
    rw [h]
    exact C5_theorem.2 9 (some ⟨.Identifier "i", ⟨1, 5, 4⟩⟩)
      (.Binary (.Literal ⟨.Number ⟨0, 1⟩, ⟨1, 7, 6⟩⟩) ⟨.Range, ⟨1, 8, 7⟩⟩
        (.Literal ⟨.Number ⟨1, 1⟩, ⟨1, 9, 8⟩⟩))
      (.Log (.Variable ⟨.Identifier "i", ⟨1, 16, 15⟩⟩)) ⟨[[]], []⟩ .Null
      ⟨[[]], ["0", "1"]⟩ h

/-- Claim C6, code bug.  The claim says malformed numeric input such as
`1.2.3` makes `scan` return an Error value rather than aborting the
process.  But the decimal-merge arm (scanner.rs 163-173) rebuilds the
number by formatting the previous token and appending the new fractional
part — `"1.2" ++ ".3"` — and calls `.parse().unwrap()`: the parse of
`"1.2.3"` fails and the `unwrap` PANICS, aborting the process instead of
returning an Error. -/
theorem C6_code_bug : scan "1.2.3" = SOut.panicked := by decide

/-- Claim C7.  When both operands of `/` evaluate to Numbers, a divisor
equal to `0.0` yields the distinguished "Division by zero." error, and any
other divisor yields the numeric quotient (f64 modeled by exact rational
arithmetic). -/
theorem C7_theorem (l r : Expr) (op : LocToken) (st st1 st2 : InterpState)
    (a b : F64)
    (hop : op.token = Token.Slash)
    (hl : evaluate l st = (.ok (.Number a), st1))
    (hr : evaluate r st1 = (.ok (.Number b), st2)) :
    evaluate (.Binary l op r) st =
      (if F64.qeq b f64Zero
        then (.err ⟨op.loc, "Runtime Error: Division by zero."⟩, st2)
        else (.ok (.Number (F64.div a b)), st2)) := by
  by_cases hz : F64.qeq b f64Zero <;>
    simp [evaluate, hl, hr, andThenV, binaryOp, hop, hz]

/-- Claim C7, witness: `1 / 0` errs with "Division by zero.". -/
theorem C7_witness :
    evaluate (.Binary (.Literal ⟨.Number ⟨1, 1⟩, ⟨1, 5, 4⟩⟩) ⟨.Slash, ⟨1, 7, 6⟩⟩
        (.Literal ⟨.Number ⟨0, 1⟩, ⟨1, 9, 8⟩⟩)) ⟨[[]], []⟩
      = (.err ⟨⟨1, 7, 6⟩, "Runtime Error: Division by zero."⟩, ⟨[[]], []⟩) := by
  rw [C7_theorem (.Literal ⟨.Number ⟨1, 1⟩, ⟨1, 5, 4⟩⟩) (.Literal ⟨.Number ⟨0, 1⟩, ⟨1, 9, 8⟩⟩)
    ⟨.Slash, ⟨1, 7, 6⟩⟩ ⟨[[]], []⟩ ⟨[[]], []⟩ ⟨[[]], []⟩ ⟨1, 1⟩ ⟨0, 1⟩ rfl
    (by decide) (by decide)]
  decide

/-- Claim C9.  Multiplying a String by a Number whose rounded value is
negative (in either operand order) succeeds and yields the empty String:
`round` is cast with Rust's saturating `as usize`, clamping negatives
to zero. -/
theorem C9_theorem (l1 r1 l2 r2 : Expr) (op1 op2 : LocToken)
    (stA stB stC stD stE stF : InterpState) (n m : F64) (s s2 : String)
    (hop1 : op1.token = Token.Star) (hop2 : op2.token = Token.Star)
    (h1l : evaluate l1 stA = (.ok (.Number n), stB))
    (h1r : evaluate r1 stB = (.ok (.String s), stC))
    (h2l : evaluate l2 stD = (.ok (.String s2), stE))
    (h2r : evaluate r2 stE = (.ok (.Number m), stF))
    (hn : F64.round n < 0) (hm : F64.round m < 0) :
    evaluate (.Binary l1 op1 r1) stA = (.ok (.String ""), stC) ∧
    evaluate (.Binary l2 op2 r2) stD = (.ok (.String ""), stF) := by
  constructor
  · simp [evaluate, h1l, h1r, andThenV, binaryOp, hop1, usizeSat_neg _ hn, strRepeat_zero]
  · simp [evaluate, h2l, h2r, andThenV, binaryOp, hop2, usizeSat_neg _ hm, strRepeat_zero]

/-- Claim C9, witness: `-2 * "ab"` and `"ab" * -2` both yield `""`. -/
theorem C9_witness :
    evaluate (.Binary (.Literal ⟨.Number ⟨-2, 1⟩, ⟨1, 1, 0⟩⟩) ⟨.Star, ⟨1, 4, 3⟩⟩
        (.Literal ⟨.String "ab", ⟨1, 6, 5⟩⟩)) ⟨[[]], []⟩
      = (.ok (.String ""), ⟨[[]], []⟩) ∧
    evaluate (.Binary (.Literal ⟨.String "ab", ⟨1, 1, 0⟩⟩) ⟨.Star, ⟨1, 6, 5⟩⟩
        (.Literal ⟨.Number ⟨-2, 1⟩, ⟨1, 8, 7⟩⟩)) ⟨[[]], []⟩
      = (.ok (.String ""), ⟨[[]], []⟩) :=
  C9_theorem (.Literal ⟨.Number ⟨-2, 1⟩, ⟨1, 1, 0⟩⟩) (.Literal ⟨.String "ab", ⟨1, 6, 5⟩⟩)
    (.Literal ⟨.String "ab", ⟨1, 1, 0⟩⟩) (.Literal ⟨.Number ⟨-2, 1⟩, ⟨1, 8, 7⟩⟩)
    ⟨.Star, ⟨1, 4, 3⟩⟩ ⟨.Star, ⟨1, 6, 5⟩⟩
    ⟨[[]], []⟩ ⟨[[]], []⟩ ⟨[[]], []⟩ ⟨[[]], []⟩ ⟨[[]], []⟩ ⟨[[]], []⟩
    ⟨-2, 1⟩ ⟨-2, 1⟩ "ab" "ab" rfl rfl
    (by decide) (by decide) (by decide) (by decide) (by decide) (by decide)

/-- Claim C10.  A `//` line comment consumes its characters up to and
including the terminating newline and contributes exactly ONE Newline token
(at the position just past that newline) and nothing else, so a statement
followed only by a line comment is still newline-terminated.  Stated over
one step of the scanner loop, for any comment text without an embedded
newline, any following input, and any starting state. -/
theorem C10_theorem (fuel : Nat) (cs rest : List Char) (toks : List LocToken)
    (loc : Loc) (h : '\n' ∉ cs) :
    scanLoop (fuel + 1) ⟨'/' :: '/' :: (cs ++ '\n' :: rest), toks, loc⟩
      = scanLoop fuel ⟨rest,
          toks ++ [⟨.Newline, ⟨loc.line + 1, 1, loc.idx + cs.length + 2⟩⟩],
          ⟨loc.line + 1, 1, loc.idx + cs.length + 2⟩⟩ := by
  have hstep : scanLoop (fuel + 1) ⟨'/' :: '/' :: (cs ++ '\n' :: rest), toks, loc⟩
      = scanLoop fuel (emitTok
          { it := (lineCommentLoop ('/' :: (cs ++ '\n' :: rest)) loc).1,
            tokens := toks,
            cur := (lineCommentLoop ('/' :: (cs ++ '\n' :: rest)) loc).2 } .Newline) := rfl
  rw [hstep,
    show ('/' :: (cs ++ '\n' :: rest)) = (('/' :: cs) ++ '\n' :: rest) from rfl,
    lineCommentLoop_newline ('/' :: cs) rest loc
      (by intro hm; rcases List.mem_cons.mp hm with h' | h'
          · exact absurd h'.symm (by decide)
          · exact h h')]
  simp only [emitTok, List.length_cons]
  have harith : loc.idx + (cs.length + 1) + 1 = loc.idx + cs.length + 2 := by omega
  rw [harith]

/-- Claim C10, witness: one scanner step over `//hi` followed by a newline,
from the initial location, emits exactly the Newline token. -/
theorem C10_witness :
    scanLoop 1 ⟨'/' :: '/' :: (['h', 'i'] ++ '\n' :: []), [], ⟨1, 1, 0⟩⟩
      = scanLoop 0 ⟨[], [⟨.Newline, ⟨2, 1, 4⟩⟩], ⟨2, 1, 4⟩⟩ :=
  C10_theorem 0 ['h', 'i'] [] [] ⟨1, 1, 0⟩ (by decide)

/-- Claim C8, counterexample.  The claim's program, verbatim, is
`var x = 5` / `{ var x = 10` / `log x }` / `log x`.  It does NOT print
10 then 5: the parser requires a statement terminator after `log x` before
the closing `}` (parser.rs `log` uses `end_statement_if_not_else` with
`?`), so the program is a parse error and prints nothing. -/
theorem C8_counterexample :
    runProg 25 c8aSrc
      = (.err ⟨⟨3, 5, 18⟩, "Expected ';' or newline after statement."⟩, []) := by
  have h1 : scan c8aSrc = SOut.ok c8aToks := by decide
  have h2 : parseTokens 25 c8aToks
      = PRes.err ⟨⟨3, 5, 18⟩, "Expected ';' or newline after statement."⟩ := rfl
  simp [runProg, h1, h2]

/-- Claim C8, amended.  With the statement terminators the parser requires
(`var x = 5` / `{ var x = 10` / `log x` / `}` / `log x`, newline-terminated)
the program prints 10 then 5: the inner declaration defines `x` in the
innermost scope only, shadowing but never modifying the outer binding, and
the outer value is observed again after the block exits. -/
theorem C8_theorem : runProg 25 c8bSrc = (.ok, ["10", "5"]) := by
  have h1 : scan c8bSrc = SOut.ok c8bToks := by decide
  have h2 : parseTokens 25 c8bToks = PRes.ok c8bStmts ⟨c8bToks, 19⟩ := rfl
  have h3 : interpret 25 c8bStmts ⟨[[]], []⟩
      = (.ok .Null, ⟨[[("x", .Number ⟨5, 1⟩)]], ["10", "5"]⟩) := by decide
  simp [runProg, h1, h2, h3]

end Icps
